import Mathlib

/-!
Shallow embedding of the loan-amount preprocessing pipeline of `app.py`.

A pandas frame is modelled as a header (list of column names) together with a
list of rows, each row a list of cells.  A cell is missing (NaN), a number
(floats are modelled as rationals), or a string.  `np.cbrt` is a real-valued
float function with no exact rational counterpart, so the skewness handler is
parameterised by an abstract `cbrt : ℚ → ℚ`; no property below depends on its
values.  Code that can raise (the `dropna`/`mode()[0]` calls inside
`MissingValueImputer.transform`) is modelled with `Except`.
-/

/-- A cell value: missing (NaN), numeric, or string. -/
inductive Val where
  | na : Val
  | num : ℚ → Val
  | str : String → Val
deriving DecidableEq, Repr

/-- A data frame: a header of column names and a list of rows of cells. -/
structure Dataset where
  cols : List String
  rows : List (List Val)
deriving DecidableEq, Repr

/-- Index of the first occurrence of a column name in a header (pandas column lookup). -/
def colIdx (cols : List String) (c : String) : Option Nat :=
  match cols with
  | [] => none
  | c0 :: cs => if c0 = c then some 0 else (colIdx cs c).map (fun i => i + 1)

/-- Read a row's cell at an optional position; an absent column reads as missing. -/
def cellAt (r : List Val) : Option Nat → Val
  | some i => r.getD i Val.na
  | none => Val.na

/-- The cell of row `r` in the column named `c` of a frame with header `cols`. -/
def cellOf (cols : List String) (r : List Val) (c : String) : Val :=
  cellAt r (colIdx cols c)

/-- `set(xs).issubset(df.columns)` as a Boolean test. -/
def subsetB (xs cols : List String) : Bool :=
  xs.all (fun x => cols.contains x)

/-- Apply a per-cell function, each cell paired with its column name. -/
def mapCells (cols : List String) (f : String → Val → Val) (r : List Val) : List Val :=
  (cols.zip r).map (fun p => f p.1 p.2)

/-- The numeric entry of a cell, if any. -/
def toNum : Val → Option ℚ
  | Val.num x => some x
  | _ => none

/-- The numeric (non-missing) entries of column `c`, in row order (pandas skips NaN). -/
def colNums (d : Dataset) (c : String) : List ℚ :=
  d.rows.filterMap (fun r => toNum (cellOf d.cols r c))

/-- Insert into a sorted list of rationals. -/
def insertSorted (x : ℚ) : List ℚ → List ℚ
  | [] => [x]
  | y :: ys => if x ≤ y then x :: y :: ys else y :: insertSorted x ys

/-- Insertion sort of a list of rationals. -/
def sortQ : List ℚ → List ℚ
  | [] => []
  | x :: xs => insertSorted x (sortQ xs)

/-- A natural number as a rational, by explicit construction (kernel-reducible). -/
def natToQ (n : Nat) : ℚ := mkRat (Int.ofNat n) 1

/-- Floor of a nonnegative rational, as a natural number. -/
def qfloorNat (q : ℚ) : Nat := (q.num / Int.ofNat q.den).toNat

/-- pandas `Series.quantile(p)` with the default linear interpolation, over the
non-missing values: position `h = (n-1)·p` between the sorted values. `none`
models the NaN returned on an empty column. -/
def quantileQ (p : ℚ) (l : List ℚ) : Option ℚ :=
  match sortQ l with
  | [] => none
  | x :: xs =>
    let s := x :: xs
    let n := s.length
    let h : ℚ := natToQ (n - 1) * p
    let i := qfloorNat h
    let lo := s.getD i 0
    let hi := s.getD (if i + 1 < n then i + 1 else n - 1) lo
    some (lo + (h - natToQ i) * (hi - lo))

/-- `Series.mode()[0]`: a most frequent non-missing value; `none` when the column
has no non-missing value (in which case `mode()[0]` raises).  pandas breaks
ties by sorted order; we keep the earliest occurrence — no property below
depends on the tie order. -/
def argmaxCount (vs : List Val) : List Val → Option Val
  | [] => none
  | c :: cs =>
    match argmaxCount vs cs with
    | none => some c
    | some b => some (if vs.count b > vs.count c then b else c)

/-- See `argmaxCount`. -/
def modeVal (vs : List Val) : Option Val :=
  let nn := vs.filter (fun v => !(v == Val.na))
  argmaxCount nn nn

/-- pandas `Series.median()` over the non-missing values: middle element, or the
mean of the two middle elements; `none` models NaN on an empty column. -/
def medianQ (l : List ℚ) : Option ℚ :=
  let s := sortQ l
  let n := s.length
  if n = 0 then none
  else if n % 2 = 1 then some (s.getD (n / 2) 0)
  else some ((s.getD (n / 2 - 1) 0 + s.getD (n / 2) 0) / 2)

/-- Smallest element of a list of rationals. -/
def listMin : List ℚ → Option ℚ
  | [] => none
  | x :: xs => some (match listMin xs with | none => x | some m => if x ≤ m then x else m)

/-- Largest element of a list of rationals. -/
def listMax : List ℚ → Option ℚ
  | [] => none
  | x :: xs => some (match listMax xs with | none => x | some m => if m ≤ x then x else m)

/-- `OutlierImputer.feat_with_outliers` (app.py lines 61-67). -/
def feat_with_outliers : List String :=
  ["Income (USD)", "Loan Amount Request (USD)", "Current Loan Expenses (USD)",
   "Property Age", "Property Price"]

/-- Per-column outlier bounds `[Q1 - 1.5·IQR, Q3 + 1.5·IQR]`, with the quartiles
computed from the frame the transform is called on (app.py lines 77-80). -/
def outlierBounds (d : Dataset) (c : String) : Option (ℚ × ℚ) :=
  match quantileQ (1/4) (colNums d c), quantileQ (3/4) (colNums d c) with
  | some q1, some q3 => some (q1 - 3/2 * (q3 - q1), q3 + 3/2 * (q3 - q1))
  | _, _ => none

/-- One cell of the `(df < lo) | (df > hi)` mask: numeric cells compare against
the bounds, NaN comparisons are False in pandas, an empty column has NaN
bounds and also compares False. -/
def outCell (b : Option (ℚ × ℚ)) : Val → Bool
  | Val.num x =>
    match b with
    | some p => decide (x < p.1) || decide (p.2 < x)
    | none => false
  | _ => false

/-- The row mask `(...).any(axis=1)` of `OutlierImputer.transform`. -/
def rowOut (d : Dataset) (r : List Val) : Bool :=
  feat_with_outliers.any (fun c => outCell (outlierBounds d c) (cellOf d.cols r c))

/-- `OutlierImputer.transform` (app.py lines 74-91): keep the rows whose five
designated columns all lie inside the IQR bounds; no-op when a declared
column is absent. -/
def OutlierImputer_transform (df : Dataset) : Dataset :=
  if subsetB feat_with_outliers df.cols then
    { cols := df.cols, rows := df.rows.filter (fun r => !rowOut df r) }
  else df

/-- The diagnostic printed by `OutlierImputer.transform`'s else branch (line 90). -/
def OutlierImputer_diag (df : Dataset) : List String :=
  if subsetB feat_with_outliers df.cols then []
  else ["One or more features are not in the dataframe"]

/-- `OutlierImputer.transform` builds a filtered copy (`df = df[...]` rebinds a
local); the caller's frame is left unchanged. -/
def OutlierImputer_effect (df : Dataset) : Dataset := df

/-- `DropUncommonProfession.profession_list` (app.py line 136). -/
def profession_list : List String := ["Student", "Unemployed", "Businessman"]

/-- One cell of the `df["Profession"].isin(profession_list)` mask. -/
def isinProfession : Val → Bool
  | Val.str s => profession_list.contains s
  | _ => false

/-- `DropUncommonProfession.transform` (app.py lines 142-149). -/
def DropUncommonProfession_transform (df : Dataset) : Dataset :=
  if df.cols.contains "Profession" then
    { cols := df.cols,
      rows := df.rows.filter (fun r => !isinProfession (cellOf df.cols r "Profession")) }
  else df

/-- The diagnostic printed by `DropUncommonProfession.transform` (line 148). -/
def DropUncommonProfession_diag (df : Dataset) : List String :=
  if df.cols.contains "Profession" then []
  else ["Profession feature is not in the dataframe"]

/-- `DropUncommonProfession.transform` builds a filtered copy; the caller's
frame is left unchanged. -/
def DropUncommonProfession_effect (df : Dataset) : Dataset := df

/-- `DropFeatures.feature_to_drop` (app.py line 155). -/
def feature_to_drop : List String :=
  ["Customer ID", "Name", "Type of Employment", "Property ID"]

/-- Project the columns named in `bad` out of a row. -/
def dropColsRow (cols : List String) (bad : List String) (r : List Val) : List Val :=
  ((cols.zip r).filter (fun p => !bad.contains p.1)).map Prod.snd

/-- `DropFeatures.transform` (app.py lines 162-168). -/
def DropFeatures_transform (df : Dataset) : Dataset :=
  if subsetB feature_to_drop df.cols then
    { cols := df.cols.filter (fun c => !feature_to_drop.contains c),
      rows := df.rows.map (dropColsRow df.cols feature_to_drop) }
  else df

/-- The diagnostic printed by `DropFeatures.transform` (line 167). -/
def DropFeatures_diag (df : Dataset) : List String :=
  if subsetB feature_to_drop df.cols then []
  else ["One or more features are not in the dataframe"]

/-- `df.drop(..., inplace=True)` (line 164): the caller's frame is mutated to
the returned value. -/
def DropFeatures_effect (df : Dataset) : Dataset := DropFeatures_transform df

/-- `MissingValueImputer.mode_imputed_ft` (app.py lines 97-103). -/
def mode_imputed_ft : List String :=
  ["Gender", "Income Stability", "Dependents", "Has Active Credit Card",
   "Property Location"]

/-- `MissingValueImputer.median_imputed_ft` (app.py lines 104-109). -/
def median_imputed_ft : List String :=
  ["Income (USD)", "Current Loan Expenses (USD)", "Credit Score", "Property Age"]

/-- The target column used by the `dropna` step (app.py line 120). -/
def targetCol : String := "Loan Sanction Amount (USD)"

/-- `df[ft] = df[ft].fillna(v)`: fill the missing cells of the column at
position `i` with `v`. -/
def fillAt (i : Option Nat) (v : Val) (r : List Val) : List Val :=
  match i with
  | some i => if r.getD i Val.na == Val.na then r.set i v else r
  | none => r

/-- One mode-imputation step: `the_mode = df[ft].mode()[0]` (raises an
IndexError when the column has no non-missing value), then `fillna`. -/
def fillModeStep (cols : List String) (rows : List (List Val)) (ft : String) :
    Except String (List (List Val)) :=
  match modeVal (rows.map (fun r => cellOf cols r ft)) with
  | none => Except.error ("IndexError: mode of column " ++ ft ++ " is empty")
  | some m => Except.ok (rows.map (fillAt (colIdx cols ft) m))

/-- The `for ft in self.mode_imputed_ft` loop (app.py lines 122-124). -/
def fillModes (cols : List String) : List String → List (List Val) → Except String (List (List Val))
  | [], rows => Except.ok rows
  | ft :: fts, rows =>
    match fillModeStep cols rows ft with
    | Except.error e => Except.error e
    | Except.ok rows2 => fillModes cols fts rows2

/-- One median-imputation step: `fillna(median)`; a column with no numeric value
has a NaN median and the fill leaves the NaNs in place. -/
def fillMedianStep (cols : List String) (rows : List (List Val)) (ft : String) :
    List (List Val) :=
  match medianQ (rows.filterMap (fun r => toNum (cellOf cols r ft))) with
  | none => rows
  | some m => rows.map (fillAt (colIdx cols ft) (Val.num m))

/-- The `for ft in self.median_imputed_ft` loop (app.py lines 126-128). -/
def fillMedians (cols : List String) : List String → List (List Val) → List (List Val)
  | [], rows => rows
  | ft :: fts, rows => fillMedians cols fts (fillMedianStep cols rows ft)

/-- `MissingValueImputer.transform` (app.py lines 117-132): drop the rows whose
target cell is missing, then mode- and median-impute.  The
`dropna(subset=["Loan Sanction Amount (USD)"])` call raises a KeyError when
that column is absent — its presence is not part of the guarded declared
column set. -/
def MissingValueImputer_transform (df : Dataset) : Except String Dataset :=
  if subsetB (mode_imputed_ft ++ median_imputed_ft) df.cols then
    if df.cols.contains targetCol then
      let rows1 := df.rows.filter (fun r => !(cellOf df.cols r targetCol == Val.na))
      match fillModes df.cols mode_imputed_ft rows1 with
      | Except.error e => Except.error e
      | Except.ok rows2 =>
        Except.ok { cols := df.cols, rows := fillMedians df.cols median_imputed_ft rows2 }
    else Except.error ("KeyError: " ++ targetCol)
  else Except.ok df

/-- The diagnostic printed by `MissingValueImputer.transform` (line 131). -/
def MissingValueImputer_diag (df : Dataset) : List String :=
  if subsetB (mode_imputed_ft ++ median_imputed_ft) df.cols then []
  else ["One or more features are not in the dataframe"]

/-- `dropna(inplace=True)` / `df[ft] = ...` (lines 120-128) mutate the caller's
frame; on success the caller holds the returned frame.  The KeyError is
raised before any mutation; on the IndexError path the rows dropped by
`dropna` (and any fills of earlier columns) are already applied — the first
failing column's earlier siblings are modelled as unfilled, a path no
property below reaches. -/
def MissingValueImputer_effect (df : Dataset) : Dataset :=
  if subsetB (mode_imputed_ft ++ median_imputed_ft) df.cols then
    if df.cols.contains targetCol then
      let rows1 := df.rows.filter (fun r => !(cellOf df.cols r targetCol == Val.na))
      match fillModes df.cols mode_imputed_ft rows1 with
      | Except.error _ => { cols := df.cols, rows := rows1 }
      | Except.ok rows2 =>
        { cols := df.cols, rows := fillMedians df.cols median_imputed_ft rows2 }
    else df
  else df

/-- `ValueImputer.feat_with_999_val` (app.py lines 174-179). -/
def feat_with_999_val : List String :=
  ["Co-Applicant", "Current Loan Expenses (USD)", "Loan Sanction Amount (USD)",
   "Property Price"]

/-- `replace(-999.000, 0)`: an exact numeric match (regex=True is inert for a
numeric pattern). -/
def replaceSentinel : Val → Val
  | Val.num x => if x = -999 then Val.num 0 else Val.num x
  | v => v

/-- The per-cell action of `ValueImputer.transform`. -/
def sentF (c : String) (v : Val) : Val :=
  if feat_with_999_val.contains c then replaceSentinel v else v

/-- The per-row action of `ValueImputer.transform`. -/
def valueRow (cols : List String) (r : List Val) : List Val :=
  mapCells cols sentF r

/-- `ValueImputer.transform` (app.py lines 186-194). -/
def ValueImputer_transform (df : Dataset) : Dataset :=
  if subsetB feat_with_999_val df.cols then
    { cols := df.cols, rows := df.rows.map (valueRow df.cols) }
  else df

/-- The diagnostic printed by `ValueImputer.transform` (line 193). -/
def ValueImputer_diag (df : Dataset) : List String :=
  if subsetB feat_with_999_val df.cols then []
  else ["One or more features are not in the dataframe"]

/-- `df[ft].replace(..., inplace=True)` (line 190) mutates the caller's frame. -/
def ValueImputer_effect (df : Dataset) : Dataset := ValueImputer_transform df

/-- `SkewnessHandler.col_with_skewness` (app.py lines 288-293). -/
def col_with_skewness : List String :=
  ["Income (USD)", "Loan Amount Request (USD)", "Current Loan Expenses (USD)",
   "Property Age"]

/-- `np.cbrt` on one cell; NaN maps to NaN. -/
def cbrtCell (cbrt : ℚ → ℚ) : Val → Val
  | Val.num x => Val.num (cbrt x)
  | v => v

/-- The per-cell action of `SkewnessHandler.transform`. -/
def skewF (cbrt : ℚ → ℚ) (c : String) (v : Val) : Val :=
  if col_with_skewness.contains c then cbrtCell cbrt v else v

/-- The per-row action of `SkewnessHandler.transform`. -/
def skewRow (cbrt : ℚ → ℚ) (cols : List String) (r : List Val) : List Val :=
  mapCells cols (skewF cbrt) r

/-- `SkewnessHandler.transform` (app.py lines 300-307). -/
def SkewnessHandler_transform (cbrt : ℚ → ℚ) (df : Dataset) : Dataset :=
  if subsetB col_with_skewness df.cols then
    { cols := df.cols, rows := df.rows.map (skewRow cbrt df.cols) }
  else df

/-- The diagnostic printed by `SkewnessHandler.transform` (line 306). -/
def SkewnessHandler_diag (df : Dataset) : List String :=
  if subsetB col_with_skewness df.cols then []
  else ["One or more skewed columns are not found"]

/-- `df[self.col_with_skewness] = np.cbrt(...)` (line 303) mutates the caller's
frame. -/
def SkewnessHandler_effect (cbrt : ℚ → ℚ) (df : Dataset) : Dataset :=
  SkewnessHandler_transform cbrt df

/-- `MinMaxWithFeatNames.min_max_scaler_ft` (app.py lines 200-208). -/
def min_max_scaler_ft : List String :=
  ["Age", "Income (USD)", "Loan Amount Request (USD)", "Current Loan Expenses (USD)",
   "Credit Score", "Property Age", "Property Price"]

/-- The statistics `MinMaxScaler` fits: per-column min and max over the
non-missing values of the frame it is fit on. -/
def minMaxStats (d : Dataset) (c : String) : Option (ℚ × ℚ) :=
  match listMin (colNums d c), listMax (colNums d c) with
  | some mn, some mx => some (mn, mx)
  | _, _ => none

/-- sklearn min-max scaling of one cell: `(x - min) / (max - min)`, with a zero
range handled as scale 1 (the output is then `x - min = 0`); NaN is
preserved. -/
def scaleCell (st : Option (ℚ × ℚ)) : Val → Val
  | Val.num x =>
    match st with
    | some p => Val.num (if p.1 = p.2 then x - p.1 else (x - p.1) / (p.2 - p.1))
    | none => Val.num x
  | v => v

/-- The per-cell action of `MinMaxWithFeatNames.transform`, with statistics
fitted on `d`. -/
def minMaxCellF (d : Dataset) (c : String) (v : Val) : Val :=
  if min_max_scaler_ft.contains c then scaleCell (minMaxStats d c) v else v

/-- The per-row action of `MinMaxWithFeatNames.transform`. -/
def minMaxRow (d : Dataset) (r : List Val) : List Val :=
  mapCells d.cols (minMaxCellF d) r

/-- `MinMaxWithFeatNames.transform` (app.py lines 215-224): fit a MinMaxScaler
on the designated columns of the frame itself and rescale them in place. -/
def MinMaxWithFeatNames_transform (df : Dataset) : Dataset :=
  if subsetB min_max_scaler_ft df.cols then
    { cols := df.cols, rows := df.rows.map (minMaxRow df) }
  else df

/-- The diagnostic printed by `MinMaxWithFeatNames.transform` (line 223). -/
def MinMaxWithFeatNames_diag (df : Dataset) : List String :=
  if subsetB min_max_scaler_ft df.cols then []
  else ["One or more features are not in the dataframe"]

/-- `df[self.min_max_scaler_ft] = ...` (line 218) mutates the caller's frame. -/
def MinMaxWithFeatNames_effect (df : Dataset) : Dataset :=
  MinMaxWithFeatNames_transform df

/-- `OneHotWithFeatNames.one_hot_enc_ft` (app.py lines 230-239). -/
def one_hot_enc_ft : List String :=
  ["Gender", "Profession", "Location", "Expense Type 1", "Expense Type 2",
   "Has Active Credit Card", "Property Location", "Income Stability"]

/-- String form of a category value, used in the generated indicator-column
names (`get_feature_names_out`). -/
def valStr : Val → String
  | Val.na => "nan"
  | Val.num x => toString x
  | Val.str s => s

/-- The values of column `c`, in row order. -/
def colVals (d : Dataset) (c : String) : List Val :=
  d.rows.map (fun r => cellOf d.cols r c)

/-- The category vocabulary `OneHotEncoder` fits for column `c`: the distinct
values observed in the frame it is fit on. -/
def oneHotCats (d : Dataset) (c : String) : List Val :=
  (colVals d c).dedup

/-- The indicator block of one row for designated column `c`: one 0/1 cell per
fitted category. -/
def oneHotGroup (d : Dataset) (r : List Val) (c : String) : List Val :=
  (oneHotCats d c).map (fun cv => if cellOf d.cols r c == cv then Val.num 1 else Val.num 0)

/-- The generated indicator-column names, `<column>_<category>`. -/
def oneHotHeader (d : Dataset) : List String :=
  (one_hot_enc_ft.map (fun c => (oneHotCats d c).map (fun cv => c ++ "_" ++ valStr cv))).flatten

/-- The column names not designated for encoding (`rest_of_features`, line 268). -/
def restCols (cols : List String) : List String :=
  cols.filter (fun c => !one_hot_enc_ft.contains c)

/-- The cells of a row in the non-designated columns. -/
def restCells (cols : List String) (r : List Val) : List Val :=
  ((cols.zip r).filter (fun p => !one_hot_enc_ft.contains p.1)).map Prod.snd

/-- The per-row action of `OneHotWithFeatNames.transform`: the indicator blocks
of the eight designated columns, then the untouched cells
(`pd.concat([one_hot_enc_df, df[rest_of_features]], axis=1)`, line 270). -/
def oneHotRowF (d : Dataset) (r : List Val) : List Val :=
  (one_hot_enc_ft.map (oneHotGroup d r)).flatten ++ restCells d.cols r

/-- `OneHotWithFeatNames.transform` (app.py lines 246-282). -/
def OneHotWithFeatNames_transform (df : Dataset) : Dataset :=
  if subsetB one_hot_enc_ft df.cols then
    { cols := oneHotHeader df ++ restCols df.cols, rows := df.rows.map (oneHotRowF df) }
  else df

/-- The diagnostic printed by `OneHotWithFeatNames.transform` (line 281). -/
def OneHotWithFeatNames_diag (df : Dataset) : List String :=
  if subsetB one_hot_enc_ft df.cols then []
  else ["One or more features are not in the dataframe"]

/-- `OneHotWithFeatNames.transform` builds a new concatenated frame; the
caller's frame is left unchanged. -/
def OneHotWithFeatNames_effect (df : Dataset) : Dataset := df

/-- One pipeline stage: its name and its transform step, as listed in
`full_pipeline` (the `fit` of every stage returns `self`). -/
def pipelineSteps (cbrt : ℚ → ℚ) : List (String × (Dataset → Except String Dataset)) :=
  [("drop features", fun d => Except.ok (DropFeatures_transform d)),
   ("outlier remover", fun d => Except.ok (OutlierImputer_transform d)),
   ("drop uncommon profession", fun d => Except.ok (DropUncommonProfession_transform d)),
   ("missing value imputer", MissingValueImputer_transform),
   ("-999 value imputer", fun d => Except.ok (ValueImputer_transform d)),
   ("skewness handler", fun d => Except.ok (SkewnessHandler_transform cbrt d)),
   ("min max scaler", fun d => Except.ok (MinMaxWithFeatNames_transform d)),
   ("one hot encoder", fun d => Except.ok (OneHotWithFeatNames_transform d))]

/-- `full_pipeline` (app.py lines 310-324): `Pipeline.fit_transform` applies the
stages sequentially, each consuming the previous stage's output. -/
def full_pipeline (cbrt : ℚ → ℚ) (df : Dataset) : Except String Dataset :=
  (pipelineSteps cbrt).foldl (fun acc s => Except.bind acc s.2) (Except.ok df)

/-- The raw values collected by the form (app.py lines 336-403): sliders give
numbers, radio buttons and select boxes give strings from fixed choice
lists. -/
structure FormInputs where
  inputGender : String
  inputAge : ℚ
  inputIncome : ℚ
  incomeStab : String
  inputProfessions : String
  location : String
  loanAmountReq : ℚ
  inputCurrentLoanAmt : ℚ
  expTypeOne : String
  expTypeTwo : String
  dependentsCount : ℚ
  creditScore : ℚ
  loanDefaultVal : ℚ
  ccStatusInput : String
  propertyAgeSlider : ℚ
  propertyTypeInput : ℚ
  propLocation : String
  coApplicantVal : ℚ
  propPrice : ℚ

/-- Modelled from the spec: the training table `datasets/train.csv` is not in
the repository; its column schema is the fixed named schema enumerated in the
spec's data model, in the order matched positionally by `profile_to_predict`
(app.py lines 413-441). -/
def trainCols : List String :=
  ["Customer ID", "Name", "Gender", "Age", "Income (USD)", "Income Stability",
   "Profession", "Type of Employment", "Location", "Loan Amount Request (USD)",
   "Current Loan Expenses (USD)", "Expense Type 1", "Expense Type 2",
   "Dependents", "Credit Score", "No. of Defaults", "Has Active Credit Card",
   "Property ID", "Property Age", "Property Type", "Property Location",
   "Co-Applicant", "Property Price", "Loan Sanction Amount (USD)"]

/-- `profile_to_predict` (app.py lines 413-438): the live query record.  The
placeholder for the sanctioned loan amount (the last entry) is the number 0;
the property age slider is already multiplied by 365.25 (line 384). -/
def profile_to_predict (f : FormInputs) : List Val :=
  [Val.str "", Val.str "",
   Val.str (f.inputGender.take 1),
   Val.num f.inputAge,
   Val.num f.inputIncome,
   Val.str f.incomeStab,
   Val.str f.inputProfessions,
   Val.str "",
   Val.str f.location,
   Val.num f.loanAmountReq,
   Val.num f.inputCurrentLoanAmt,
   Val.str (f.expTypeOne.take 1),
   Val.str (f.expTypeTwo.take 1),
   Val.num f.dependentsCount,
   Val.num f.creditScore,
   Val.num f.loanDefaultVal,
   Val.str f.ccStatusInput,
   Val.num 0,
   Val.num (f.propertyAgeSlider * (1461 / 4)),
   Val.num f.propertyTypeInput,
   Val.str f.propLocation,
   Val.num f.coApplicantVal,
   Val.num f.propPrice,
   Val.num 0]

/-- `train_copy_with_profile_to_pred` (app.py line 444): the query record
appended as the last row of the historical frame. -/
def appendQuery (hist : List (List Val)) (q : List Val) : Dataset :=
  { cols := trainCols, rows := hist ++ [q] }

/-- pandas `.tail(1)`: the frame holding only the last row. -/
def tailOne (d : Dataset) : Dataset :=
  { cols := d.cols,
    rows := match d.rows.getLast? with | some r => [r] | none => [] }

/-- pandas `.drop(columns=["Loan Sanction Amount (USD)"])`. -/
def dropTargetCol (d : Dataset) : Dataset :=
  { cols := d.cols.filter (fun c => !(c == targetCol)),
    rows := d.rows.map (fun r => ((d.cols.zip r).filter (fun p => !(p.1 == targetCol))).map Prod.snd) }

/-- `profile_to_pred_prep` (app.py lines 447-451): the full pipeline over the
query-appended frame, then the last row with the target column removed. -/
def profile_to_pred_prep (cbrt : ℚ → ℚ) (hist : List (List Val)) (q : List Val) :
    Except String Dataset :=
  (full_pipeline cbrt (appendQuery hist q)).map (fun d => dropTargetCol (tailOne d))

/-- The image of one surviving row through the four trailing row-wise stages,
each stage fitting its statistics on the frame it receives: sentinel
replacement, skew correction, min-max scaling (statistics from the skewed
frame), one-hot encoding (vocabulary from the scaled frame). -/
def tailStagesRow (cbrt : ℚ → ℚ) (d4 : Dataset) (r : List Val) : List Val :=
  oneHotRowF
    (MinMaxWithFeatNames_transform
      (SkewnessHandler_transform cbrt (ValueImputer_transform d4)))
    (minMaxRow (SkewnessHandler_transform cbrt (ValueImputer_transform d4))
      (skewRow cbrt (ValueImputer_transform d4).cols (valueRow d4.cols r)))

/-- A concrete frame for the outlier-remover witness: two rows, all five
designated columns inside their IQR bounds. -/
def wOutlierFrame : Dataset :=
  { cols := feat_with_outliers,
    rows := [[Val.num 1, Val.num 1, Val.num 1, Val.num 1, Val.num 1],
             [Val.num 2, Val.num 2, Val.num 2, Val.num 2, Val.num 2]] }

/-- A concrete frame for the min-max witness: the seven designated columns plus
one untouched column, each designated column with max > min. -/
def wScaleFrame : Dataset :=
  { cols := min_max_scaler_ft ++ ["Extra"],
    rows := [[Val.num 1, Val.num 1, Val.num 1, Val.num 1, Val.num 1, Val.num 1,
              Val.num 1, Val.str "x"],
             [Val.num 2, Val.num 2, Val.num 2, Val.num 2, Val.num 2, Val.num 2,
              Val.num 2, Val.str "y"]] }

/-- A concrete frame for the one-hot witness: the eight designated categorical
columns plus one untouched column. -/
def wEncodeFrame : Dataset :=
  { cols := one_hot_enc_ft ++ ["Keep"],
    rows := [[Val.str "M", Val.str "Working", Val.str "Urban", Val.str "Y",
              Val.str "N", Val.str "Active", Val.str "Rural", Val.str "Low", Val.num 5],
             [Val.str "F", Val.str "Working", Val.str "Rural", Val.str "N",
              Val.str "N", Val.str "Inactive", Val.str "Urban", Val.str "High", Val.num 6]] }

/-- The near-sentinel -998.999 of the spec's example, given in lowest terms so
that comparisons against it are direct field comparisons. -/
def nearSentinel : ℚ := Rat.mk' (-998999) 1000

/-- A concrete frame for the sentinel-replacement witness: exact sentinels, a
near-sentinel -998.999, and a sentinel in an undeclared column. -/
def wSentinelFrame : Dataset :=
  { cols := feat_with_999_val ++ ["Other"],
    rows := [[Val.num (-999), Val.num nearSentinel, Val.num 5, Val.num (-999),
              Val.num (-999)]] }

/-- A benign historical record over the training schema (no missing values, no
sentinels, no excluded profession). -/
def benignRow : List Val :=
  [Val.str "H1", Val.str "HistName", Val.str "F", Val.num 35, Val.num 1000,
   Val.str "High", Val.str "Working", Val.str "emp", Val.str "Rural", Val.num 500,
   Val.num 20, Val.str "N", Val.str "Y", Val.num 2, Val.num 650, Val.num 1,
   Val.str "Inactive", Val.num 3, Val.num 1461, Val.num 2, Val.str "Urban",
   Val.num 1, Val.num 9000, Val.num 30000]

/-- A second benign historical record with the same values in the five
outlier-checked columns. -/
def benignRow2 : List Val :=
  [Val.str "H2", Val.str "Hist2", Val.str "M", Val.num 50, Val.num 1000,
   Val.str "Low", Val.str "Pensioner", Val.str "emp", Val.str "Urban", Val.num 500,
   Val.num 20, Val.str "Y", Val.str "N", Val.num 0, Val.num 720, Val.num 0,
   Val.str "Active", Val.num 8, Val.num 1461, Val.num 4, Val.str "Rural",
   Val.num 0, Val.num 9000, Val.num 40000]

/-- A one-row clean frame over the training schema (idempotence witness). -/
def wCleanFrame : Dataset := { cols := trainCols, rows := [benignRow] }

/-- Concrete form inputs whose outlier-checked values match the benign
historical rows (the property-age slider 4 gives 4 · 365.25 = 1461 days). -/
def formGood : FormInputs :=
  { inputGender := "Male", inputAge := 40, inputIncome := 1000,
    incomeStab := "Low", inputProfessions := "Working", location := "Urban",
    loanAmountReq := 500, inputCurrentLoanAmt := 20, expTypeOne := "Yes",
    expTypeTwo := "No", dependentsCount := 1, creditScore := 700,
    loanDefaultVal := 0, ccStatusInput := "Active", propertyAgeSlider := 4,
    propertyTypeInput := 1, propLocation := "Rural", coApplicantVal := 0,
    propPrice := 9000 }

/-- The same form inputs with the excluded profession Student. -/
def formStudent : FormInputs := { formGood with inputProfessions := "Student" }

/-- The two benign historical rows. -/
def histRows2 : List (List Val) := [benignRow, benignRow2]

/-- The fitted range of a designated column is strict (max > min); vacuous for
an unfitted (empty) column.  Executable form of the spec's "max > min"
hypothesis. -/
def statsStrict (d : Dataset) (c : String) : Bool :=
  match minMaxStats d c with
  | some p => decide (p.1 < p.2)
  | none => true

/-- The first four pipeline stages (the stages that can drop rows). -/
def pipelinePrefix (d : Dataset) : Except String Dataset :=
  MissingValueImputer_transform
    (DropUncommonProfession_transform
      (OutlierImputer_transform (DropFeatures_transform d)))

/-- The training header after `DropFeatures`. -/
def trainColsKept : List String :=
  trainCols.filter (fun c => !feature_to_drop.contains c)

/-- The benign historical rows and the Student query after `DropFeatures`. -/
def keptRow1 : List Val := dropColsRow trainCols feature_to_drop benignRow

/-- See `keptRow1`. -/
def keptRow2 : List Val := dropColsRow trainCols feature_to_drop benignRow2

/-- See `keptRow1`. -/
def keptStudentRow : List Val :=
  dropColsRow trainCols feature_to_drop (profile_to_predict formStudent)

/-! ## Helper lemmas -/

/-- Unfolding of the stage fold of `full_pipeline` into the explicit ordered
composition of the eight transform steps. -/
theorem full_pipeline_unfold (cbrt : ℚ → ℚ) (df : Dataset) :
    full_pipeline cbrt df =
      match MissingValueImputer_transform
          (DropUncommonProfession_transform
            (OutlierImputer_transform (DropFeatures_transform df))) with
      | Except.error e => Except.error e
      | Except.ok d =>
        Except.ok (OneHotWithFeatNames_transform
          (MinMaxWithFeatNames_transform
            (SkewnessHandler_transform cbrt (ValueImputer_transform d)))) := by
  cases h : MissingValueImputer_transform
      (DropUncommonProfession_transform
        (OutlierImputer_transform (DropFeatures_transform df))) with
  | error e => simp [full_pipeline, pipelineSteps, Except.bind, h]
  | ok d => simp [full_pipeline, pipelineSteps, Except.bind, h]

/-! ## C1 -/

/-- C1: `full_pipeline` applies exactly the eight transform steps in the fixed
order — drop irrelevant columns, remove outliers, drop uncommon professions,
impute missing values, replace sentinel values, correct skew, min-max
normalize, one-hot encode — each step consuming the previous step's output;
for every input no step is skipped or reordered. -/
theorem full_pipeline_is_ordered_composition (cbrt : ℚ → ℚ) (df : Dataset) :
    full_pipeline cbrt df =
      Except.bind
        (MissingValueImputer_transform
          (DropUncommonProfession_transform
            (OutlierImputer_transform (DropFeatures_transform df))))
        (fun d =>
          Except.ok (OneHotWithFeatNames_transform
            (MinMaxWithFeatNames_transform
              (SkewnessHandler_transform cbrt (ValueImputer_transform d))))) := by
  rw [full_pipeline_unfold]
  cases MissingValueImputer_transform
      (DropUncommonProfession_transform
        (OutlierImputer_transform (DropFeatures_transform df))) <;> rfl

/-! ## C2 -/

/-- C2 as stated is false: with `MissingValueImputer`'s declared columns present
but the target column absent, the transform raises (the unguarded
`dropna(subset=["Loan Sanction Amount (USD)"])`) instead of degrading to a
no-op. -/
theorem missing_target_column_raises :
    MissingValueImputer_transform
        { cols := mode_imputed_ft ++ median_imputed_ft, rows := [] } =
      Except.error ("KeyError: " ++ targetCol) := by
  rfl

/-- C2 (amended): every transform whose declared column set is not fully
present returns its input unchanged and emits a diagnostic; but
`MissingValueImputer` raises a KeyError when its declared columns are present
while the target column `Loan Sanction Amount (USD)` is absent. -/
theorem schema_mismatch_behaviour (cbrt : ℚ → ℚ) (d : Dataset) :
    (subsetB feature_to_drop d.cols = false →
      DropFeatures_transform d = d ∧ DropFeatures_diag d ≠ []) ∧
    (subsetB feat_with_outliers d.cols = false →
      OutlierImputer_transform d = d ∧ OutlierImputer_diag d ≠ []) ∧
    (d.cols.contains "Profession" = false →
      DropUncommonProfession_transform d = d ∧ DropUncommonProfession_diag d ≠ []) ∧
    (subsetB (mode_imputed_ft ++ median_imputed_ft) d.cols = false →
      MissingValueImputer_transform d = Except.ok d ∧ MissingValueImputer_diag d ≠ []) ∧
    (subsetB feat_with_999_val d.cols = false →
      ValueImputer_transform d = d ∧ ValueImputer_diag d ≠ []) ∧
    (subsetB col_with_skewness d.cols = false →
      SkewnessHandler_transform cbrt d = d ∧ SkewnessHandler_diag d ≠ []) ∧
    (subsetB min_max_scaler_ft d.cols = false →
      MinMaxWithFeatNames_transform d = d ∧ MinMaxWithFeatNames_diag d ≠ []) ∧
    (subsetB one_hot_enc_ft d.cols = false →
      OneHotWithFeatNames_transform d = d ∧ OneHotWithFeatNames_diag d ≠ []) ∧
    (subsetB (mode_imputed_ft ++ median_imputed_ft) d.cols = true →
      d.cols.contains targetCol = false →
      MissingValueImputer_transform d = Except.error ("KeyError: " ++ targetCol)) := by
  refine ⟨?_, ?_, ?_, ?_, ?_, ?_, ?_, ?_, ?_⟩
  · intro h
    exact ⟨by simp [DropFeatures_transform, h], by simp [DropFeatures_diag, h]⟩
  · intro h
    exact ⟨by simp [OutlierImputer_transform, h], by simp [OutlierImputer_diag, h]⟩
  · intro h
    have h2 : "Profession" ∉ d.cols := by simpa using h
    exact ⟨by simp [DropUncommonProfession_transform, h2],
      by simp [DropUncommonProfession_diag, h2]⟩
  · intro h
    exact ⟨by simp [MissingValueImputer_transform, h],
      by simp [MissingValueImputer_diag, h]⟩
  · intro h
    exact ⟨by simp [ValueImputer_transform, h], by simp [ValueImputer_diag, h]⟩
  · intro h
    exact ⟨by simp [SkewnessHandler_transform, h], by simp [SkewnessHandler_diag, h]⟩
  · intro h
    exact ⟨by simp [MinMaxWithFeatNames_transform, h],
      by simp [MinMaxWithFeatNames_diag, h]⟩
  · intro h
    exact ⟨by simp [OneHotWithFeatNames_transform, h],
      by simp [OneHotWithFeatNames_diag, h]⟩
  · intro h1 h2
    have h3 : targetCol ∉ d.cols := by simpa using h2
    simp [MissingValueImputer_transform, h1, h3]

/-- Witness for the amended C2: every no-op branch fires on the empty-header
frame, and the KeyError branch fires on a frame holding exactly the declared
imputation columns. -/
theorem schema_mismatch_behaviour_witness :
    (DropFeatures_transform { cols := [], rows := [] } = { cols := [], rows := [] } ∧
      DropFeatures_diag { cols := [], rows := [] } ≠ []) ∧
    (OutlierImputer_transform { cols := [], rows := [] } = { cols := [], rows := [] } ∧
      OutlierImputer_diag { cols := [], rows := [] } ≠ []) ∧
    (DropUncommonProfession_transform { cols := [], rows := [] } = { cols := [], rows := [] } ∧
      DropUncommonProfession_diag { cols := [], rows := [] } ≠ []) ∧
    (MissingValueImputer_transform { cols := [], rows := [] } =
        Except.ok { cols := [], rows := [] } ∧
      MissingValueImputer_diag { cols := [], rows := [] } ≠ []) ∧
    (ValueImputer_transform { cols := [], rows := [] } = { cols := [], rows := [] } ∧
      ValueImputer_diag { cols := [], rows := [] } ≠ []) ∧
    (SkewnessHandler_transform (fun x => x) { cols := [], rows := [] } =
        { cols := [], rows := [] } ∧
      SkewnessHandler_diag { cols := [], rows := [] } ≠ []) ∧
    (MinMaxWithFeatNames_transform { cols := [], rows := [] } = { cols := [], rows := [] } ∧
      MinMaxWithFeatNames_diag { cols := [], rows := [] } ≠ []) ∧
    (OneHotWithFeatNames_transform { cols := [], rows := [] } = { cols := [], rows := [] } ∧
      OneHotWithFeatNames_diag { cols := [], rows := [] } ≠ []) ∧
    MissingValueImputer_transform
        { cols := mode_imputed_ft ++ median_imputed_ft, rows := [] } =
      Except.error ("KeyError: " ++ targetCol) := by
  have h := schema_mismatch_behaviour (fun x => x) { cols := [], rows := [] }
  have h9 := schema_mismatch_behaviour (fun x => x)
    { cols := mode_imputed_ft ++ median_imputed_ft, rows := [] }
  exact ⟨h.1 (by decide), h.2.1 (by decide), h.2.2.1 (by decide), h.2.2.2.1 (by decide),
    h.2.2.2.2.1 (by decide), h.2.2.2.2.2.1 (by decide), h.2.2.2.2.2.2.1 (by decide),
    h.2.2.2.2.2.2.2.1 (by decide), h9.2.2.2.2.2.2.2.2 (by decide) (by decide)⟩

/-! ## C9 -/

/-- C9 as stated is false: `DropFeatures.transform` drops the declared columns
with `inplace=True`, mutating the very frame the caller passed in. -/
theorem dropfeatures_mutates_caller_frame :
    DropFeatures_effect { cols := feature_to_drop, rows := [] } ≠
      { cols := feature_to_drop, rows := [] } := by
  decide

/-- C9 (amended): every step consumes one Dataset and returns one, but only the
outlier remover, the profession filter and the one-hot encoder leave the
caller's frame unchanged; DropFeatures, MissingValueImputer, ValueImputer,
the min-max scaler and the skewness handler mutate the caller's frame in
place, so after the call the caller holds the returned frame. -/
theorem transform_effects_on_input (cbrt : ℚ → ℚ) (d : Dataset) :
    OutlierImputer_effect d = d ∧
    DropUncommonProfession_effect d = d ∧
    OneHotWithFeatNames_effect d = d ∧
    DropFeatures_effect d = DropFeatures_transform d ∧
    ValueImputer_effect d = ValueImputer_transform d ∧
    SkewnessHandler_effect cbrt d = SkewnessHandler_transform cbrt d ∧
    MinMaxWithFeatNames_effect d = MinMaxWithFeatNames_transform d ∧
    (∀ out, MissingValueImputer_transform d = Except.ok out →
      MissingValueImputer_effect d = out) := by
  refine ⟨rfl, rfl, rfl, rfl, rfl, rfl, rfl, ?_⟩
  intro out h
  unfold MissingValueImputer_transform at h
  unfold MissingValueImputer_effect
  by_cases h1 : subsetB (mode_imputed_ft ++ median_imputed_ft) d.cols
  · by_cases h2 : d.cols.contains targetCol
    · simp only [h1, if_true, h2] at h ⊢
      cases h3 : fillModes d.cols mode_imputed_ft
          (d.rows.filter (fun r => !(cellOf d.cols r targetCol == Val.na))) with
      | error e => rw [h3] at h; exact absurd h (by simp)
      | ok rows2 => rw [h3] at h; simpa using h
    · simp only [h1, if_true, h2, if_false] at h
      exact absurd h (by simp)
  · simp only [h1, if_false] at h ⊢
    simpa using h

/-- A map whose function fixes every element of a list is the identity. -/
theorem map_eq_self_of_forall {α : Type} (l : List α) (f : α → α)
    (h : ∀ x ∈ l, f x = x) : l.map f = l := by
  induction l with
  | nil => rfl
  | cons x xs ih => simp [h x (by simp), ih (fun y hy => h y (by simp [hy]))]

/-- `fillna` leaves a row unchanged in a column where its cell is not missing. -/
theorem fillAt_of_ne (cols : List String) (ft : String) (v : Val) (r : List Val)
    (h : cellOf cols r ft ≠ Val.na) : fillAt (colIdx cols ft) v r = r := by
  unfold cellOf at h
  cases hidx : colIdx cols ft with
  | none => rfl
  | some i =>
    rw [hidx] at h
    simp only [cellAt] at h
    have hb : (r.getD i Val.na == Val.na) = false := by simpa using h
    show (if r.getD i Val.na == Val.na then r.set i v else r) = r
    simp only [hb]
    simp

/-- A column holding at least one non-missing value has a mode. -/
theorem modeVal_isSome_of_mem {vs : List Val} {v : Val} (hv : v ∈ vs)
    (hn : v ≠ Val.na) : (modeVal vs).isSome = true := by
  have hm : v ∈ vs.filter (fun u => !(u == Val.na)) :=
    List.mem_filter.mpr ⟨hv, by simp [hn]⟩
  unfold modeVal
  cases h : vs.filter (fun u => !(u == Val.na)) with
  | nil => simp [h] at hm
  | cons a as =>
    simp only [h, argmaxCount]
    cases argmaxCount (a :: as) as <;> simp

/-- The mode loop succeeds and keeps an appended last row whose cells in the
looped columns are all non-missing. -/
theorem fillModes_append_last (cols : List String) (fts : List String) :
    ∀ (rows : List (List Val)) (q : List Val),
    (∀ ft ∈ fts, cellOf cols q ft ≠ Val.na) →
    ∃ rows2, fillModes cols fts (rows ++ [q]) = Except.ok (rows2 ++ [q]) := by
  induction fts with
  | nil => exact fun rows q _ => ⟨rows, rfl⟩
  | cons ft fts ih =>
    intro rows q h
    have hq : cellOf cols q ft ≠ Val.na := h ft (by simp)
    have hmem : cellOf cols q ft ∈ (rows ++ [q]).map (fun r => cellOf cols r ft) := by
      simp
    obtain ⟨m, hm⟩ := Option.isSome_iff_exists.mp (modeVal_isSome_of_mem hmem hq)
    have hstep : fillModeStep cols (rows ++ [q]) ft =
        Except.ok (rows.map (fillAt (colIdx cols ft) m) ++ [q]) := by
      unfold fillModeStep
      rw [hm]
      simp [fillAt_of_ne cols ft m q hq]
    obtain ⟨rows2, h2⟩ := ih (rows.map (fillAt (colIdx cols ft) m)) q
      (fun x hx => h x (by simp [hx]))
    exact ⟨rows2, by rw [fillModes, hstep]; exact h2⟩

/-- The median loop keeps an appended last row whose cells in the looped
columns are all non-missing. -/
theorem fillMedians_append_last (cols : List String) (fts : List String) :
    ∀ (rows : List (List Val)) (q : List Val),
    (∀ ft ∈ fts, cellOf cols q ft ≠ Val.na) →
    ∃ rows2, fillMedians cols fts (rows ++ [q]) = rows2 ++ [q] := by
  induction fts with
  | nil => exact fun rows q _ => ⟨rows, rfl⟩
  | cons ft fts ih =>
    intro rows q h
    have hq : cellOf cols q ft ≠ Val.na := h ft (by simp)
    rw [fillMedians]
    cases hmed : medianQ ((rows ++ [q]).filterMap (fun r => toNum (cellOf cols r ft))) with
    | none =>
      have hstep : fillMedianStep cols (rows ++ [q]) ft = rows ++ [q] := by
        unfold fillMedianStep
        rw [hmed]
      rw [hstep]
      exact ih rows q (fun x hx => h x (by simp [hx]))
    | some m =>
      have hstep : fillMedianStep cols (rows ++ [q]) ft =
          rows.map (fillAt (colIdx cols ft) (Val.num m)) ++ [q] := by
        unfold fillMedianStep
        rw [hmed]
        simp [fillAt_of_ne cols ft (Val.num m) q hq]
      rw [hstep]
      exact ih _ q (fun x hx => h x (by simp [hx]))

/-- The mode loop is the identity on a nonempty set of rows with no missing
cell in the looped columns. -/
theorem fillModes_clean (cols : List String) (fts : List String)
    (rows : List (List Val)) (hne : rows ≠ [])
    (h : ∀ ft ∈ fts, ∀ r ∈ rows, cellOf cols r ft ≠ Val.na) :
    fillModes cols fts rows = Except.ok rows := by
  induction fts with
  | nil => rfl
  | cons ft fts ih =>
    obtain ⟨r0, rest⟩ : ∃ r0 rest, rows = r0 :: rest := by
      cases rows with
      | nil => exact absurd rfl hne
      | cons a as => exact ⟨a, as, rfl⟩
    obtain ⟨rest, rfl⟩ := rest
    have hq : cellOf cols r0 ft ≠ Val.na := h ft (by simp) r0 (by simp)
    have hmem : cellOf cols r0 ft ∈ (r0 :: rest).map (fun r => cellOf cols r ft) := by
      simp
    obtain ⟨m, hm⟩ := Option.isSome_iff_exists.mp (modeVal_isSome_of_mem hmem hq)
    have hmap := map_eq_self_of_forall (r0 :: rest) (fillAt (colIdx cols ft) m)
      (fun r hr => fillAt_of_ne cols ft m r (h ft (by simp) r hr))
    have hstep : fillModeStep cols (r0 :: rest) ft = Except.ok (r0 :: rest) := by
      unfold fillModeStep
      rw [hm]
      simp [hmap]
    rw [fillModes, hstep]
    exact ih (fun x hx r hr => h x (by simp [hx]) r hr)

/-- The median loop is the identity on rows with no missing cell in the looped
columns. -/
theorem fillMedians_clean (cols : List String) (fts : List String)
    (rows : List (List Val))
    (h : ∀ ft ∈ fts, ∀ r ∈ rows, cellOf cols r ft ≠ Val.na) :
    fillMedians cols fts rows = rows := by
  induction fts with
  | nil => rfl
  | cons ft fts ih =>
    rw [fillMedians]
    cases hmed : medianQ (rows.filterMap (fun r => toNum (cellOf cols r ft))) with
    | none =>
      have hstep : fillMedianStep cols rows ft = rows := by
        unfold fillMedianStep
        rw [hmed]
      rw [hstep]
      exact ih (fun x hx => h x (by simp [hx]))
    | some m =>
      have hstep : fillMedianStep cols rows ft = rows := by
        unfold fillMedianStep
        rw [hmed]
        simp [map_eq_self_of_forall rows (fillAt (colIdx cols ft) (Val.num m))
          (fun r hr => fillAt_of_ne cols ft (Val.num m) r (h ft (by simp) r hr))]
      rw [hstep]
      exact ih (fun x hx => h x (by simp [hx]))

/-- `MissingValueImputer.transform` on a frame holding the declared columns and
the target column: drop the rows with a missing target, then run the two
imputation loops. -/
theorem MissingValueImputer_ok (d : Dataset)
    (hsub : subsetB (mode_imputed_ft ++ median_imputed_ft) d.cols = true)
    (htgt : d.cols.contains targetCol = true) :
    MissingValueImputer_transform d =
      match fillModes d.cols mode_imputed_ft
          (d.rows.filter (fun r => !(cellOf d.cols r targetCol == Val.na))) with
      | Except.error e => Except.error e
      | Except.ok rows2 =>
        Except.ok { cols := d.cols, rows := fillMedians d.cols median_imputed_ft rows2 } := by
  simp only [MissingValueImputer_transform, hsub, htgt, if_true]

/-- A pair in the zip of a duplicate-free header with a row reads back through
`cellOf`. -/
theorem cellOf_of_mem_zip (cols : List String) (r : List Val) (c : String) (v : Val)
    (hnd : cols.Nodup) (hm : (c, v) ∈ cols.zip r) : cellOf cols r c = v := by
  induction cols generalizing r with
  | nil => simp at hm
  | cons c0 cs ih =>
    cases r with
    | nil => simp at hm
    | cons v0 vs =>
      rcases List.mem_cons.mp hm with heq | htl
      · obtain ⟨hc, hv⟩ := Prod.mk.injEq c v c0 v0 ▸ heq
        subst hc hv
        simp [cellOf, colIdx, cellAt]
      · have hcin : c ∈ cs := (List.of_mem_zip htl).1
        have hne : c0 ≠ c := by
          intro h
          exact (List.nodup_cons.mp hnd).1 (h ▸ hcin)
        have hrec := ih vs (List.nodup_cons.mp hnd).2 htl
        unfold cellOf colIdx
        rw [if_neg hne]
        unfold cellOf at hrec
        cases hidx : colIdx cs c with
        | none => rw [hidx] at hrec; exact hrec
        | some j =>
          rw [hidx] at hrec
          simpa [cellAt] using hrec

/-- A cell map whose function fixes every (column, cell) pair of a row is the
identity on that row. -/
theorem mapCells_eq_self (cols : List String) (f : String → Val → Val) (r : List Val)
    (hlen : r.length = cols.length)
    (h : ∀ p ∈ cols.zip r, f p.1 p.2 = p.2) : mapCells cols f r = r := by
  unfold mapCells
  rw [List.map_congr_left h]
  exact List.map_snd_zip _ _ (le_of_eq hlen)

/-- Sentinel replacement fixes any cell that is not exactly -999. -/
theorem replaceSentinel_of_ne (v : Val) (h : v ≠ Val.num (-999)) :
    replaceSentinel v = v := by
  cases v with
  | num x =>
    have hx : ¬(x = -999) := fun hx => h (by rw [hx])
    simp [replaceSentinel, hx]
  | na => rfl
  | str s => rfl

/-! ## C3 -/

/-- C3: the live query record is built with the number 0 as its target
placeholder (its last entry), and the drop-missing-target step of
`MissingValueImputer` does not treat that placeholder as missing: for every
form input and every historical frame, the transform succeeds and the
appended query row is still the last row of its output. -/
theorem query_row_survives_missing_value_imputer (f : FormInputs)
    (hist : List (List Val)) :
    (profile_to_predict f).getLast? = some (Val.num 0) ∧
    ∃ out, MissingValueImputer_transform (appendQuery hist (profile_to_predict f)) =
        Except.ok out ∧
      out.rows.getLast? = some (profile_to_predict f) := by
  constructor
  · rfl
  · have hq : ∀ ft ∈ mode_imputed_ft ++ median_imputed_ft,
        cellOf trainCols (profile_to_predict f) ft ≠ Val.na := by
      intro ft hft
      have hcases : ft = "Gender" ∨ ft = "Income Stability" ∨ ft = "Dependents" ∨
          ft = "Has Active Credit Card" ∨ ft = "Property Location" ∨
          ft = "Income (USD)" ∨ ft = "Current Loan Expenses (USD)" ∨
          ft = "Credit Score" ∨ ft = "Property Age" := by
        simpa [mode_imputed_ft, median_imputed_ft] using hft
      rcases hcases with rfl | rfl | rfl | rfl | rfl | rfl | rfl | rfl | rfl <;>
        exact fun hcontra => Val.noConfusion hcontra
    have hsub : subsetB (mode_imputed_ft ++ median_imputed_ft)
        (appendQuery hist (profile_to_predict f)).cols = true := by
      show subsetB (mode_imputed_ft ++ median_imputed_ft) trainCols = true
      decide
    have htgt : (appendQuery hist (profile_to_predict f)).cols.contains targetCol = true := by
      show trainCols.contains targetCol = true
      decide
    obtain ⟨rows2, h2⟩ := fillModes_append_last trainCols mode_imputed_ft
      (hist.filter (fun r => !(cellOf trainCols r targetCol == Val.na)))
      (profile_to_predict f) (fun ft hft => hq ft (by simp [hft]))
    obtain ⟨rows3, h3⟩ := fillMedians_append_last trainCols median_imputed_ft
      rows2 (profile_to_predict f) (fun ft hft => hq ft (by simp [hft]))
    refine ⟨{ cols := trainCols, rows := rows3 ++ [profile_to_predict f] }, ?_, by simp⟩
    rw [MissingValueImputer_ok _ hsub htgt]
    simp only [appendQuery]
    have hq0 : cellOf trainCols (profile_to_predict f) targetCol = Val.num 0 := rfl
    have hfilter : (hist ++ [profile_to_predict f]).filter
        (fun r => !(cellOf trainCols r targetCol == Val.na)) =
        hist.filter (fun r => !(cellOf trainCols r targetCol == Val.na)) ++
          [profile_to_predict f] := by
      rw [List.filter_append]
      simp [hq0]
    rw [hfilter, h2]
    exact congrArg (fun rs => Except.ok ({ cols := trainCols, rows := rs } : Dataset)) h3

/-! ## C4 -/

/-- C4: for a frame holding the five declared numeric columns, the outlier
remover keeps the column set, removes exactly the rows in which some
designated cell falls outside `[Q1 - 1.5·IQR, Q3 + 1.5·IQR]` with the
quartiles computed over the same input (row removal, never clipping), and
removes no row when every row is within bounds. -/
theorem outlier_remover_filters_by_iqr (d : Dataset)
    (h : subsetB feat_with_outliers d.cols = true) :
    (OutlierImputer_transform d).cols = d.cols ∧
    (OutlierImputer_transform d).rows = d.rows.filter (fun r => !rowOut d r) ∧
    ((∀ r ∈ d.rows, rowOut d r = false) → OutlierImputer_transform d = d) := by
  refine ⟨by simp [OutlierImputer_transform, h], by simp [OutlierImputer_transform, h], ?_⟩
  intro hall
  have hf : d.rows.filter (fun r => !rowOut d r) = d.rows :=
    List.filter_eq_self.mpr (fun r hr => by simp [hall r hr])
  simp [OutlierImputer_transform, h, hf]

/-- Witness for C4 on a concrete two-row frame where every designated value is
inside its column's bounds: nothing is removed. -/
theorem outlier_remover_filters_by_iqr_witness :
    subsetB feat_with_outliers wOutlierFrame.cols = true ∧
    (∀ r ∈ wOutlierFrame.rows, rowOut wOutlierFrame r = false) ∧
    OutlierImputer_transform wOutlierFrame = wOutlierFrame := by
  refine ⟨by decide, by with_unfolding_all decide, ?_⟩
  exact (outlier_remover_filters_by_iqr wOutlierFrame (by decide)).2.2
    (by with_unfolding_all decide)

/-! ## C8 -/

/-- C8: each imputer is idempotent on already-clean data: when its declared
columns are present and the frame is clean for it (no out-of-bounds row, no
excluded profession, no missing value, no remaining sentinel), applying the
transform a second time to its own output produces no further change. -/
theorem imputers_idempotent_on_clean (d : Dataset) :
    ((subsetB feat_with_outliers d.cols = true ∧
        (∀ r ∈ d.rows, rowOut d r = false)) →
      OutlierImputer_transform (OutlierImputer_transform d) = OutlierImputer_transform d) ∧
    ((d.cols.contains "Profession" = true ∧
        (∀ r ∈ d.rows, isinProfession (cellOf d.cols r "Profession") = false)) →
      DropUncommonProfession_transform (DropUncommonProfession_transform d) =
        DropUncommonProfession_transform d) ∧
    ((subsetB (mode_imputed_ft ++ median_imputed_ft) d.cols = true ∧
        d.cols.contains targetCol = true ∧ d.rows ≠ [] ∧
        (∀ r ∈ d.rows, cellOf d.cols r targetCol ≠ Val.na) ∧
        (∀ ft ∈ mode_imputed_ft ++ median_imputed_ft, ∀ r ∈ d.rows,
          cellOf d.cols r ft ≠ Val.na)) →
      Except.bind (MissingValueImputer_transform d) MissingValueImputer_transform =
        MissingValueImputer_transform d) ∧
    ((subsetB feat_with_999_val d.cols = true ∧
        (∀ r ∈ d.rows, r.length = d.cols.length) ∧ d.cols.Nodup ∧
        (∀ ft ∈ feat_with_999_val, ∀ r ∈ d.rows,
          cellOf d.cols r ft ≠ Val.num (-999))) →
      ValueImputer_transform (ValueImputer_transform d) = ValueImputer_transform d) := by
  refine ⟨?_, ?_, ?_, ?_⟩
  · rintro ⟨hsub, hall⟩
    have hf : d.rows.filter (fun r => !rowOut d r) = d.rows :=
      List.filter_eq_self.mpr (fun r hr => by simp [hall r hr])
    have hid : OutlierImputer_transform d = d := by
      simp [OutlierImputer_transform, hsub, hf]
    rw [hid]
    exact hid
  · rintro ⟨hsub, hall⟩
    have hf : d.rows.filter (fun r => !isinProfession (cellOf d.cols r "Profession")) =
        d.rows :=
      List.filter_eq_self.mpr (fun r hr => by simp [hall r hr])
    have hid : DropUncommonProfession_transform d = d := by
      simp [DropUncommonProfession_transform, hsub, hf]
    rw [hid]
    exact hid
  · rintro ⟨hsub, htgt, hne, htna, hcells⟩
    have hfilter : d.rows.filter (fun r => !(cellOf d.cols r targetCol == Val.na)) =
        d.rows :=
      List.filter_eq_self.mpr (fun r hr => by simp [htna r hr])
    have hmode : fillModes d.cols mode_imputed_ft d.rows = Except.ok d.rows :=
      fillModes_clean d.cols mode_imputed_ft d.rows hne
        (fun ft hft r hr => hcells ft (by simp [hft]) r hr)
    have hmed : fillMedians d.cols median_imputed_ft d.rows = d.rows :=
      fillMedians_clean d.cols median_imputed_ft d.rows
        (fun ft hft r hr => hcells ft (by simp [hft]) r hr)
    have hok : MissingValueImputer_transform d = Except.ok d := by
      rw [MissingValueImputer_ok d hsub htgt, hfilter, hmode]
      simp [hmed]
    rw [hok]
    show MissingValueImputer_transform d = Except.ok d
    exact hok
  · rintro ⟨hsub, hlen, hnodup, hcells⟩
    have hrow : ∀ r ∈ d.rows, valueRow d.cols r = r := by
      intro r hr
      apply mapCells_eq_self _ _ _ (hlen r hr)
      intro p hp
      have hcell : cellOf d.cols r p.1 = p.2 := cellOf_of_mem_zip _ _ _ _ hnodup hp
      unfold sentF
      by_cases hc : feat_with_999_val.contains p.1
      · rw [if_pos hc]
        apply replaceSentinel_of_ne
        intro he
        exact hcells p.1 (by simpa using hc) r hr (by rw [hcell, he])
      · rw [if_neg hc]
    have hid : ValueImputer_transform d = d := by
      have hrows : d.rows.map (valueRow d.cols) = d.rows :=
        map_eq_self_of_forall _ _ hrow
      simp [ValueImputer_transform, hsub, hrows]
    rw [hid]
    exact hid

/-- Witness for C8: the four idempotence facts on a concrete one-row clean
frame over the training schema. -/
theorem imputers_idempotent_on_clean_witness :
    OutlierImputer_transform (OutlierImputer_transform wCleanFrame) =
      OutlierImputer_transform wCleanFrame ∧
    DropUncommonProfession_transform (DropUncommonProfession_transform wCleanFrame) =
      DropUncommonProfession_transform wCleanFrame ∧
    Except.bind (MissingValueImputer_transform wCleanFrame) MissingValueImputer_transform =
      MissingValueImputer_transform wCleanFrame ∧
    ValueImputer_transform (ValueImputer_transform wCleanFrame) =
      ValueImputer_transform wCleanFrame := by
  have h := imputers_idempotent_on_clean wCleanFrame
  exact ⟨h.1 ⟨by decide, by with_unfolding_all decide⟩,
    h.2.1 ⟨by decide, by with_unfolding_all decide⟩,
    h.2.2.1 ⟨by decide, by decide, by decide, by with_unfolding_all decide,
      by with_unfolding_all decide⟩,
    h.2.2.2 ⟨by decide, by decide, by decide, by with_unfolding_all decide⟩⟩

/-- Witness for the amended C9: on a frame where `MissingValueImputer` succeeds,
the caller's frame after the call is the returned frame. -/
theorem transform_effects_on_input_witness :
    MissingValueImputer_transform { cols := ([] : List String), rows := ([] : List (List Val)) } =
      Except.ok { cols := ([] : List String), rows := ([] : List (List Val)) } ∧
    MissingValueImputer_effect { cols := ([] : List String), rows := ([] : List (List Val)) } =
      { cols := ([] : List String), rows := ([] : List (List Val)) } := by
  exact ⟨rfl, (transform_effects_on_input (fun x => x)
    { cols := ([] : List String), rows := ([] : List (List Val)) }).2.2.2.2.2.2.2
    { cols := ([] : List String), rows := ([] : List (List Val)) } rfl⟩

/-- A name in a subset-checked list is in the header. -/
theorem mem_of_subsetB {xs cols : List String} (h : subsetB xs cols = true)
    {c : String} (hc : c ∈ xs) : c ∈ cols := by
  unfold subsetB at h
  have hcont := List.all_eq_true.mp h c hc
  simpa using hcont

/-- Reading a mapped row at a header name applies the cell function to the cell
read from the original row. -/
theorem cellOf_mapCells (cols : List String) (f : String → Val → Val) (r : List Val)
    (c : String) (hm : c ∈ cols) (hlen : r.length = cols.length) :
    cellOf cols (mapCells cols f r) c = f c (cellOf cols r c) := by
  induction cols generalizing r with
  | nil => simp at hm
  | cons c0 cs ih =>
    cases r with
    | nil => simp at hlen
    | cons v0 vs =>
      by_cases hc : c0 = c
      · subst hc
        simp [cellOf, colIdx, cellAt, mapCells]
      · have hmem : c ∈ cs := by
          rcases List.mem_cons.mp hm with h | h
          · exact absurd h.symm hc
          · exact h
        have hrec := ih vs hmem (by simpa using hlen)
        have hmc : mapCells (c0 :: cs) f (v0 :: vs) = f c0 v0 :: mapCells cs f vs := rfl
        rw [hmc]
        unfold cellOf colIdx
        rw [if_neg hc]
        unfold cellOf at hrec
        cases hidx : colIdx cs c with
        | none => rw [hidx] at hrec; simpa [cellAt] using hrec
        | some j => rw [hidx] at hrec; simpa [cellAt] using hrec

/-- The fitted column minimum bounds every entry from below. -/
theorem listMin_le {l : List ℚ} {m : ℚ} (hm : listMin l = some m) :
    ∀ x ∈ l, m ≤ x := by
  induction l generalizing m with
  | nil => cases hm
  | cons y ys ih =>
    intro x hx
    rw [listMin] at hm
    cases hys : listMin ys with
    | none =>
      rw [hys] at hm
      have hempty : ys = [] := by
        cases ys with
        | nil => rfl
        | cons a as => rw [listMin] at hys; cases hys
      subst hempty
      have hm2 : y = m := by simpa using hm
      have hx2 : x = y := by simpa using hx
      rw [← hm2, hx2]
    | some k =>
      rw [hys] at hm
      have hm2 : (if y ≤ k then y else k) = m := by simpa using hm
      rcases List.mem_cons.mp hx with hxy | hx2
      · rw [← hm2, hxy]
        by_cases hyk : y ≤ k
        · rw [if_pos hyk]
        · rw [if_neg hyk]
          exact le_of_lt (lt_of_not_le hyk)
      · have hk := ih hys x hx2
        rw [← hm2]
        by_cases hyk : y ≤ k
        · rw [if_pos hyk]; exact le_trans hyk hk
        · rw [if_neg hyk]; exact hk

/-- The fitted column maximum bounds every entry from above. -/
theorem le_listMax {l : List ℚ} {m : ℚ} (hm : listMax l = some m) :
    ∀ x ∈ l, x ≤ m := by
  induction l generalizing m with
  | nil => cases hm
  | cons y ys ih =>
    intro x hx
    rw [listMax] at hm
    cases hys : listMax ys with
    | none =>
      rw [hys] at hm
      have hempty : ys = [] := by
        cases ys with
        | nil => rfl
        | cons a as => rw [listMax] at hys; cases hys
      subst hempty
      have hm2 : y = m := by simpa using hm
      have hx2 : x = y := by simpa using hx
      rw [← hm2, hx2]
    | some k =>
      rw [hys] at hm
      have hm2 : (if k ≤ y then y else k) = m := by simpa using hm
      rcases List.mem_cons.mp hx with hxy | hx2
      · rw [← hm2, hxy]
        by_cases hky : k ≤ y
        · rw [if_pos hky]
        · rw [if_neg hky]
          exact le_of_lt (lt_of_not_le hky)
      · have hk := ih hys x hx2
        rw [← hm2]
        by_cases hky : k ≤ y
        · rw [if_pos hky]; exact le_trans hk hky
        · rw [if_neg hky]; exact hk

/-- A numeric cell of a row is among the numeric entries of its column. -/
theorem mem_colNums (d : Dataset) (c : String) (r : List Val) (x : ℚ)
    (hr : r ∈ d.rows) (hx : cellOf d.cols r c = Val.num x) : x ∈ colNums d c := by
  unfold colNums
  exact List.mem_filterMap.mpr ⟨r, hr, by simp [hx, toNum]⟩

/-- A nonempty column has fitted min-max statistics. -/
theorem minMaxStats_of_mem (d : Dataset) (c : String) (x : ℚ) (hx : x ∈ colNums d c) :
    ∃ mn mx, minMaxStats d c = some (mn, mx) := by
  unfold minMaxStats
  cases hl : colNums d c with
  | nil => rw [hl] at hx; cases hx
  | cons a as =>
    rw [listMin, listMax]
    exact ⟨_, _, rfl⟩

/-! ## C5 -/

/-- C5: on a frame holding the seven declared numeric columns, all numeric, each
with max > min, the range normalizer maps each designated cell x to
`(x - min) / (max - min)` with min and max fitted on the same input, every
scaled value lies in [0, 1], the column names and row count are preserved,
rows are mapped in order, and cells of other columns are unchanged. -/
theorem minmax_normalizes_to_unit_interval (d : Dataset)
    (hsub : subsetB min_max_scaler_ft d.cols = true)
    (hlen : ∀ r ∈ d.rows, r.length = d.cols.length)
    (hnum : ∀ c ∈ min_max_scaler_ft, ∀ r ∈ d.rows,
      (toNum (cellOf d.cols r c)).isSome = true)
    (hstrict : ∀ c ∈ min_max_scaler_ft, statsStrict d c = true) :
    (MinMaxWithFeatNames_transform d).cols = d.cols ∧
    (MinMaxWithFeatNames_transform d).rows = d.rows.map (minMaxRow d) ∧
    (∀ r ∈ d.rows, ∀ c ∈ min_max_scaler_ft,
      ∃ x mn mx : ℚ, cellOf d.cols r c = Val.num x ∧
        minMaxStats d c = some (mn, mx) ∧
        cellOf d.cols (minMaxRow d r) c = Val.num ((x - mn) / (mx - mn)) ∧
        0 ≤ (x - mn) / (mx - mn) ∧ (x - mn) / (mx - mn) ≤ 1) ∧
    (∀ r ∈ d.rows, ∀ c ∈ d.cols, c ∉ min_max_scaler_ft →
      cellOf d.cols (minMaxRow d r) c = cellOf d.cols r c) := by
  refine ⟨by simp [MinMaxWithFeatNames_transform, hsub],
    by simp [MinMaxWithFeatNames_transform, hsub, minMaxRow], ?_, ?_⟩
  · intro r hr c hc
    obtain ⟨x, hx⟩ : ∃ x, cellOf d.cols r c = Val.num x := by
      have h1 := hnum c hc r hr
      cases hcell : cellOf d.cols r c with
      | num q => exact ⟨q, rfl⟩
      | na => rw [hcell] at h1; simp [toNum] at h1
      | str s => rw [hcell] at h1; simp [toNum] at h1
    have hxmem : x ∈ colNums d c := mem_colNums d c r x hr hx
    obtain ⟨mn, mx, hst⟩ := minMaxStats_of_mem d c x hxmem
    have hlt : mn < mx := by
      have h2 := hstrict c hc
      unfold statsStrict at h2
      rw [hst] at h2
      exact of_decide_eq_true h2
    have hmn : listMin (colNums d c) = some mn := by
      unfold minMaxStats at hst
      cases h1 : listMin (colNums d c) with
      | none => rw [h1] at hst; cases listMax (colNums d c) <;> simp at hst
      | some a =>
        rw [h1] at hst
        cases h2 : listMax (colNums d c) with
        | none => rw [h2] at hst; simp at hst
        | some b => rw [h2] at hst; simp at hst; rw [hst.1]
    have hmx : listMax (colNums d c) = some mx := by
      unfold minMaxStats at hst
      cases h1 : listMin (colNums d c) with
      | none => rw [h1] at hst; cases listMax (colNums d c) <;> simp at hst
      | some a =>
        rw [h1] at hst
        cases h2 : listMax (colNums d c) with
        | none => rw [h2] at hst; simp at hst
        | some b => rw [h2] at hst; simp at hst; rw [hst.2]
    have hxlo : mn ≤ x := listMin_le hmn x hxmem
    have hxhi : x ≤ mx := le_listMax hmx x hxmem
    have hcmem : c ∈ d.cols := mem_of_subsetB hsub hc
    have hcontains : min_max_scaler_ft.contains c = true := by simpa using hc
    have hcellmap : cellOf d.cols (minMaxRow d r) c =
        minMaxCellF d c (cellOf d.cols r c) :=
      cellOf_mapCells d.cols (minMaxCellF d) r c hcmem (hlen r hr)
    have hne : ¬(mn = mx) := ne_of_lt hlt
    have hscaled : cellOf d.cols (minMaxRow d r) c =
        Val.num ((x - mn) / (mx - mn)) := by
      rw [hcellmap, hx]
      unfold minMaxCellF
      rw [if_pos hcontains]
      unfold scaleCell
      rw [hst]
      simp [hne]
    have hpos : (0 : ℚ) < mx - mn := sub_pos.mpr hlt
    refine ⟨x, mn, mx, hx, hst, hscaled, ?_, ?_⟩
    · exact div_nonneg (sub_nonneg.mpr hxlo) (le_of_lt hpos)
    · rw [div_le_one hpos]
      exact sub_le_sub_right hxhi mn
  · intro r hr c hcm hcnot
    have hcontains : min_max_scaler_ft.contains c = false := by simpa using hcnot
    unfold minMaxRow
    rw [cellOf_mapCells d.cols (minMaxCellF d) r c hcm (hlen r hr)]
    unfold minMaxCellF
    rw [hcontains]
    simp

/-- Witness for C5 on a concrete two-row frame: hypotheses hold and the scaled
frame keeps its header and row count. -/
theorem minmax_normalizes_to_unit_interval_witness :
    (∀ c ∈ min_max_scaler_ft, statsStrict wScaleFrame c = true) ∧
    (MinMaxWithFeatNames_transform wScaleFrame).cols = wScaleFrame.cols ∧
    (MinMaxWithFeatNames_transform wScaleFrame).rows =
      wScaleFrame.rows.map (minMaxRow wScaleFrame) := by
  have h := minmax_normalizes_to_unit_interval wScaleFrame (by decide)
    (by decide) (by decide) (by with_unfolding_all decide)
  exact ⟨by with_unfolding_all decide, h.1, h.2.1⟩

/-- An indicator map over a vocabulary not holding the probed value has no 1. -/
theorem count_indicator_eq_zero {l : List Val} {v : Val} (hv : v ∉ l) :
    (l.map (fun cv => if v == cv then Val.num 1 else Val.num 0)).count (Val.num 1) = 0 := by
  induction l with
  | nil => rfl
  | cons a as ih =>
    have hva : ¬(v = a) := fun h => hv (by simp [h])
    have hbeq : (v == a) = false := by simpa using hva
    simp only [List.map_cons, hbeq, if_false, List.count_cons]
    rw [ih (fun h => hv (by simp [h]))]
    simp

/-- An indicator map over a duplicate-free vocabulary holding the probed value
has exactly one 1. -/
theorem count_indicator_eq_one {l : List Val} {v : Val} (hn : l.Nodup) (hv : v ∈ l) :
    (l.map (fun cv => if v == cv then Val.num 1 else Val.num 0)).count (Val.num 1) = 1 := by
  induction l with
  | nil => cases hv
  | cons a as ih =>
    rcases List.mem_cons.mp hv with rfl | hmem
    · have hnot : v ∉ as := (List.nodup_cons.mp hn).1
      have hbeq : (v == v) = true := by simp
      simp only [List.map_cons, hbeq, if_true, List.count_cons]
      rw [count_indicator_eq_zero hnot]
      simp
    · have hva : ¬(v = a) := by
        intro h
        exact (List.nodup_cons.mp hn).1 (h ▸ hmem)
      have hbeq : (v == a) = false := by simpa using hva
      simp only [List.map_cons, hbeq, if_false, List.count_cons]
      rw [ih (List.nodup_cons.mp hn).2 hmem]
      simp

/-! ## C6 -/

/-- C6: on a frame holding the eight declared categorical columns, the one-hot
encoder emits one indicator column per category observed in the same input,
named `column_category`; every indicator cell is 0 or 1 with exactly one 1
per row per designated column's block, each block's width is the column's
unique-category count, untouched columns are kept, and rows are mapped in
order. -/
theorem onehot_encodes_with_fitted_vocabulary (d : Dataset)
    (hsub : subsetB one_hot_enc_ft d.cols = true) :
    (OneHotWithFeatNames_transform d).cols = oneHotHeader d ++ restCols d.cols ∧
    (∀ c ∈ one_hot_enc_ft, ∀ cv ∈ oneHotCats d c,
      (c ++ "_" ++ valStr cv) ∈ (OneHotWithFeatNames_transform d).cols) ∧
    (OneHotWithFeatNames_transform d).rows = d.rows.map (oneHotRowF d) ∧
    (OneHotWithFeatNames_transform d).rows.length = d.rows.length ∧
    (∀ r ∈ d.rows, ∀ c ∈ one_hot_enc_ft,
      (oneHotGroup d r c).length = ((colVals d c).dedup).length ∧
      (∀ u ∈ oneHotGroup d r c, u = Val.num 0 ∨ u = Val.num 1) ∧
      (oneHotGroup d r c).count (Val.num 1) = 1) ∧
    (∀ c ∈ d.cols, c ∉ one_hot_enc_ft → c ∈ (OneHotWithFeatNames_transform d).cols) := by
  have hcols : (OneHotWithFeatNames_transform d).cols = oneHotHeader d ++ restCols d.cols := by
    simp [OneHotWithFeatNames_transform, hsub]
  have hrows : (OneHotWithFeatNames_transform d).rows = d.rows.map (oneHotRowF d) := by
    simp [OneHotWithFeatNames_transform, hsub]
  refine ⟨hcols, ?_, hrows, by rw [hrows]; simp, ?_, ?_⟩
  · intro c hc cv hcv
    rw [hcols]
    apply List.mem_append_left
    unfold oneHotHeader
    rw [List.mem_flatten]
    refine ⟨(oneHotCats d c).map (fun u => c ++ "_" ++ valStr u), ?_, ?_⟩
    · exact List.mem_map.mpr ⟨c, hc, rfl⟩
    · exact List.mem_map.mpr ⟨cv, hcv, rfl⟩
  · intro r hr c hc
    have hcatmem : cellOf d.cols r c ∈ oneHotCats d c := by
      unfold oneHotCats
      exact List.mem_dedup.mpr (List.mem_map.mpr ⟨r, hr, rfl⟩)
    refine ⟨by simp [oneHotGroup, oneHotCats], ?_, ?_⟩
    · intro u hu
      obtain ⟨cv, _, hcv⟩ := List.mem_map.mp hu
      by_cases h : (cellOf d.cols r c == cv) = true
      · right; rw [← hcv]; simp [h]
      · left; rw [← hcv]; simp [Bool.eq_false_iff.mpr h]
    · exact count_indicator_eq_one (List.nodup_dedup _) hcatmem
  · intro c hcm hcnot
    rw [hcols]
    apply List.mem_append_right
    unfold restCols
    rw [List.mem_filter]
    exact ⟨hcm, by simpa using hcnot⟩

/-- Witness for C6 on a concrete two-row categorical frame. -/
theorem onehot_encodes_with_fitted_vocabulary_witness :
    subsetB one_hot_enc_ft wEncodeFrame.cols = true ∧
    (OneHotWithFeatNames_transform wEncodeFrame).cols =
      oneHotHeader wEncodeFrame ++ restCols wEncodeFrame.cols ∧
    (OneHotWithFeatNames_transform wEncodeFrame).rows.length =
      wEncodeFrame.rows.length := by
  have h := onehot_encodes_with_fitted_vocabulary wEncodeFrame (by decide)
  exact ⟨by decide, h.1, h.2.2.2.1⟩

/-- Sentinel replacement as a conditional on the cell value. -/
theorem replaceSentinel_eq_ite (v : Val) :
    replaceSentinel v = if v = Val.num (-999) then Val.num 0 else v := by
  by_cases h : v = Val.num (-999)
  · subst h
    simp [replaceSentinel]
  · rw [if_neg h]
    exact replaceSentinel_of_ne v h

/-! ## C7 -/

/-- C7: on a frame holding the four declared sentinel columns, the sentinel
replacer maps every cell equal to exactly -999 to 0 in those columns, leaves
every other cell unchanged (for example -998.999), and changes no cell of any
other column; the header and the row count are preserved. -/
theorem sentinel_replacer_exact (d : Dataset)
    (hsub : subsetB feat_with_999_val d.cols = true)
    (hlen : ∀ r ∈ d.rows, r.length = d.cols.length) :
    (ValueImputer_transform d).cols = d.cols ∧
    (ValueImputer_transform d).rows = d.rows.map (valueRow d.cols) ∧
    (∀ r ∈ d.rows, ∀ c ∈ feat_with_999_val,
      cellOf d.cols (valueRow d.cols r) c =
        (if cellOf d.cols r c = Val.num (-999) then Val.num 0
         else cellOf d.cols r c)) ∧
    (∀ r ∈ d.rows, ∀ c ∈ d.cols, c ∉ feat_with_999_val →
      cellOf d.cols (valueRow d.cols r) c = cellOf d.cols r c) := by
  refine ⟨by simp [ValueImputer_transform, hsub],
    by simp [ValueImputer_transform, hsub], ?_, ?_⟩
  · intro r hr c hc
    have hcm : c ∈ d.cols := mem_of_subsetB hsub hc
    have hcontains : feat_with_999_val.contains c = true := by simpa using hc
    unfold valueRow
    rw [cellOf_mapCells d.cols sentF r c hcm (hlen r hr)]
    unfold sentF
    rw [if_pos hcontains]
    exact replaceSentinel_eq_ite (cellOf d.cols r c)
  · intro r hr c hcm hcnot
    have hcontains : feat_with_999_val.contains c = false := by simpa using hcnot
    unfold valueRow
    rw [cellOf_mapCells d.cols sentF r c hcm (hlen r hr)]
    unfold sentF
    rw [hcontains]
    simp

/-- Witness for C7 on a concrete one-row frame: the exact sentinel becomes 0,
the near-sentinel -998.999 is unchanged, and a sentinel outside the declared
columns is unchanged. -/
theorem sentinel_replacer_exact_witness :
    subsetB feat_with_999_val wSentinelFrame.cols = true ∧
    cellOf wSentinelFrame.cols
        (valueRow wSentinelFrame.cols [Val.num (-999), Val.num nearSentinel,
          Val.num 5, Val.num (-999), Val.num (-999)]) "Co-Applicant" = Val.num 0 ∧
    cellOf wSentinelFrame.cols
        (valueRow wSentinelFrame.cols [Val.num (-999), Val.num nearSentinel,
          Val.num 5, Val.num (-999), Val.num (-999)])
        "Current Loan Expenses (USD)" = Val.num nearSentinel ∧
    cellOf wSentinelFrame.cols
        (valueRow wSentinelFrame.cols [Val.num (-999), Val.num nearSentinel,
          Val.num 5, Val.num (-999), Val.num (-999)]) "Other" = Val.num (-999) := by
  have h := sentinel_replacer_exact wSentinelFrame (by decide) (by decide)
  have hr : [Val.num (-999), Val.num nearSentinel, Val.num 5, Val.num (-999),
      Val.num (-999)] ∈ wSentinelFrame.rows := List.mem_singleton.mpr rfl
  refine ⟨by decide, ?_, ?_, ?_⟩
  · have h2 := h.2.2.1 [Val.num (-999), Val.num nearSentinel, Val.num 5,
      Val.num (-999), Val.num (-999)] hr "Co-Applicant" (by decide)
    have hcell : cellOf wSentinelFrame.cols [Val.num (-999), Val.num nearSentinel,
        Val.num 5, Val.num (-999), Val.num (-999)] "Co-Applicant" = Val.num (-999) := rfl
    rw [h2, hcell, if_pos rfl]
  · have h2 := h.2.2.1 [Val.num (-999), Val.num nearSentinel, Val.num 5,
      Val.num (-999), Val.num (-999)] hr "Current Loan Expenses (USD)" (by decide)
    have hcell : cellOf wSentinelFrame.cols [Val.num (-999), Val.num nearSentinel,
        Val.num 5, Val.num (-999), Val.num (-999)] "Current Loan Expenses (USD)" =
        Val.num nearSentinel := rfl
    have hne : Val.num nearSentinel ≠ Val.num (-999) := by with_unfolding_all decide
    rw [h2, hcell, if_neg hne]
  · have h2 := h.2.2.2 [Val.num (-999), Val.num nearSentinel, Val.num 5,
      Val.num (-999), Val.num (-999)] hr "Other" (by decide) (by decide)
    rw [h2]
    rfl

/-- The outlier remover keeps an appended last row that is inside the bounds of
the frame it is called on. -/
theorem OutlierImputer_keeps_last (cols : List String) (rs : List (List Val))
    (q : List Val)
    (hsub : subsetB feat_with_outliers cols = true)
    (hq : rowOut { cols := cols, rows := rs ++ [q] } q = false) :
    ∃ rs2, OutlierImputer_transform { cols := cols, rows := rs ++ [q] } =
      { cols := cols, rows := rs2 ++ [q] } := by
  refine ⟨rs.filter (fun r => !rowOut { cols := cols, rows := rs ++ [q] } r), ?_⟩
  simp [OutlierImputer_transform, hsub, List.filter_append, hq]

/-- The profession filter keeps an appended last row whose profession is not in
the exclusion list. -/
theorem DropUncommonProfession_keeps_last (cols : List String) (rs : List (List Val))
    (q : List Val)
    (hcol : cols.contains "Profession" = true)
    (hq : isinProfession (cellOf cols q "Profession") = false) :
    ∃ rs2, DropUncommonProfession_transform { cols := cols, rows := rs ++ [q] } =
      { cols := cols, rows := rs2 ++ [q] } := by
  have hmem : "Profession" ∈ cols := by simpa using hcol
  refine ⟨rs.filter (fun r => !isinProfession (cellOf cols r "Profession")), ?_⟩
  simp [DropUncommonProfession_transform, hmem, List.filter_append, hq]

/-- The missing-value imputer succeeds on, and keeps as last row, an appended
row with a non-missing target cell and non-missing cells in all imputed
columns. -/
theorem MissingValueImputer_keeps_last (cols : List String) (rs : List (List Val))
    (q : List Val)
    (hsub : subsetB (mode_imputed_ft ++ median_imputed_ft) cols = true)
    (htgt : cols.contains targetCol = true)
    (hqt : cellOf cols q targetCol ≠ Val.na)
    (hq : ∀ ft ∈ mode_imputed_ft ++ median_imputed_ft, cellOf cols q ft ≠ Val.na) :
    ∃ rs2, MissingValueImputer_transform { cols := cols, rows := rs ++ [q] } =
      Except.ok { cols := cols, rows := rs2 ++ [q] } := by
  rw [MissingValueImputer_ok { cols := cols, rows := rs ++ [q] } hsub htgt]
  dsimp only
  have hfilter : (rs ++ [q]).filter (fun r => !(cellOf cols r targetCol == Val.na)) =
      rs.filter (fun r => !(cellOf cols r targetCol == Val.na)) ++ [q] := by
    rw [List.filter_append]
    simp [hqt]
  rw [hfilter]
  obtain ⟨rs2, h2⟩ := fillModes_append_last cols mode_imputed_ft
    (rs.filter (fun r => !(cellOf cols r targetCol == Val.na))) q
    (fun ft hft => hq ft (by simp [hft]))
  obtain ⟨rs3, h3⟩ := fillMedians_append_last cols median_imputed_ft rs2 q
    (fun ft hft => hq ft (by simp [hft]))
  refine ⟨rs3, ?_⟩
  rw [h2]
  exact congrArg (fun rws => Except.ok ({ cols := cols, rows := rws } : Dataset)) h3

/-- `ValueImputer.transform` on a frame with the declared columns present. -/
theorem ValueImputer_transform_rows (d : Dataset)
    (hsub : subsetB feat_with_999_val d.cols = true) :
    ValueImputer_transform d = { cols := d.cols, rows := d.rows.map (valueRow d.cols) } := by
  simp [ValueImputer_transform, hsub]

/-- `SkewnessHandler.transform` on a frame with the declared columns present. -/
theorem SkewnessHandler_transform_rows (cbrt : ℚ → ℚ) (d : Dataset)
    (hsub : subsetB col_with_skewness d.cols = true) :
    SkewnessHandler_transform cbrt d =
      { cols := d.cols, rows := d.rows.map (skewRow cbrt d.cols) } := by
  simp [SkewnessHandler_transform, hsub]

/-- `MinMaxWithFeatNames.transform` on a frame with the declared columns present. -/
theorem MinMaxWithFeatNames_transform_rows (d : Dataset)
    (hsub : subsetB min_max_scaler_ft d.cols = true) :
    MinMaxWithFeatNames_transform d =
      { cols := d.cols, rows := d.rows.map (minMaxRow d) } := by
  simp [MinMaxWithFeatNames_transform, hsub]

/-- `OneHotWithFeatNames.transform` on a frame with the declared columns present. -/
theorem OneHotWithFeatNames_transform_rows (d : Dataset)
    (hsub : subsetB one_hot_enc_ft d.cols = true) :
    OneHotWithFeatNames_transform d =
      { cols := oneHotHeader d ++ restCols d.cols,
        rows := d.rows.map (oneHotRowF d) } := by
  simp [OneHotWithFeatNames_transform, hsub]

/-- Header preservation of the sentinel replacer. -/
theorem ValueImputer_cols (d : Dataset) (h : subsetB feat_with_999_val d.cols = true) :
    (ValueImputer_transform d).cols = d.cols := by
  simp [ValueImputer_transform, h]

/-- Row action of the sentinel replacer. -/
theorem ValueImputer_rows (d : Dataset) (h : subsetB feat_with_999_val d.cols = true) :
    (ValueImputer_transform d).rows = d.rows.map (valueRow d.cols) := by
  simp [ValueImputer_transform, h]

/-- Header preservation of the skewness handler. -/
theorem SkewnessHandler_cols (cbrt : ℚ → ℚ) (d : Dataset)
    (h : subsetB col_with_skewness d.cols = true) :
    (SkewnessHandler_transform cbrt d).cols = d.cols := by
  simp [SkewnessHandler_transform, h]

/-- Row action of the skewness handler. -/
theorem SkewnessHandler_rows (cbrt : ℚ → ℚ) (d : Dataset)
    (h : subsetB col_with_skewness d.cols = true) :
    (SkewnessHandler_transform cbrt d).rows = d.rows.map (skewRow cbrt d.cols) := by
  simp [SkewnessHandler_transform, h]

/-- Header preservation of the min-max scaler. -/
theorem MinMaxWithFeatNames_cols (d : Dataset)
    (h : subsetB min_max_scaler_ft d.cols = true) :
    (MinMaxWithFeatNames_transform d).cols = d.cols := by
  simp [MinMaxWithFeatNames_transform, h]

/-- Row action of the min-max scaler. -/
theorem MinMaxWithFeatNames_rows (d : Dataset)
    (h : subsetB min_max_scaler_ft d.cols = true) :
    (MinMaxWithFeatNames_transform d).rows = d.rows.map (minMaxRow d) := by
  simp [MinMaxWithFeatNames_transform, h]

/-- Row action of the one-hot encoder. -/
theorem OneHotWithFeatNames_rows (d : Dataset)
    (h : subsetB one_hot_enc_ft d.cols = true) :
    (OneHotWithFeatNames_transform d).rows = d.rows.map (oneHotRowF d) := by
  simp [OneHotWithFeatNames_transform, h]

/-- The four trailing row-wise stages preserve the last row position: the last
row of their composite output is the image of the last input row under
`tailStagesRow`. -/
theorem tail_stages_last (cbrt : ℚ → ℚ) (dd : Dataset) (q : List Val)
    (h5 : subsetB feat_with_999_val dd.cols = true)
    (h6 : subsetB col_with_skewness dd.cols = true)
    (h7 : subsetB min_max_scaler_ft dd.cols = true)
    (h8 : subsetB one_hot_enc_ft dd.cols = true)
    (hlast : dd.rows.getLast? = some q) :
    (OneHotWithFeatNames_transform (MinMaxWithFeatNames_transform
      (SkewnessHandler_transform cbrt (ValueImputer_transform dd)))).rows.getLast? =
      some (tailStagesRow cbrt dd q) := by
  have h6a : subsetB col_with_skewness (ValueImputer_transform dd).cols = true := by
    rw [ValueImputer_cols dd h5]
    exact h6
  have hc6 : (SkewnessHandler_transform cbrt (ValueImputer_transform dd)).cols = dd.cols := by
    rw [SkewnessHandler_cols cbrt _ h6a, ValueImputer_cols dd h5]
  have h7a : subsetB min_max_scaler_ft
      (SkewnessHandler_transform cbrt (ValueImputer_transform dd)).cols = true := by
    rw [hc6]
    exact h7
  have hc7 : (MinMaxWithFeatNames_transform
      (SkewnessHandler_transform cbrt (ValueImputer_transform dd))).cols = dd.cols := by
    rw [MinMaxWithFeatNames_cols _ h7a, hc6]
  have h8a : subsetB one_hot_enc_ft (MinMaxWithFeatNames_transform
      (SkewnessHandler_transform cbrt (ValueImputer_transform dd))).cols = true := by
    rw [hc7]
    exact h8
  rw [OneHotWithFeatNames_rows _ h8a, MinMaxWithFeatNames_rows _ h7a,
    SkewnessHandler_rows cbrt _ h6a, ValueImputer_rows dd h5]
  simp only [List.getLast?_map, hlast, Option.map_some]
  rfl

/-! ## C10 -/

/-- C10: the feature vector handed to the model is the last row of the pipeline
output with the target column removed, and that last row is the transformed
query record only under survival preconditions the code never checks: when
the query's five outlier-checked values lie inside the combined frame's IQR
bounds and its profession is not in the exclusion list (its target
placeholder is always the non-missing number 0), the pipeline succeeds and
its last row is the query record's transformed features; and for a concrete
query violating the profession precondition, the query row is removed by the
profession filter and the pipeline output equals the pipeline over the
historical frame alone, so the last row is a surviving historical record. -/
theorem last_row_is_query_under_survival (cbrt : ℚ → ℚ) (f : FormInputs)
    (hist : List (List Val))
    (h1 : rowOut (DropFeatures_transform (appendQuery hist (profile_to_predict f)))
        (dropColsRow trainCols feature_to_drop (profile_to_predict f)) = false)
    (h2 : profession_list.contains f.inputProfessions = false) :
    (∃ d4, pipelinePrefix (appendQuery hist (profile_to_predict f)) = Except.ok d4 ∧
      d4.rows.getLast? =
        some (dropColsRow trainCols feature_to_drop (profile_to_predict f)) ∧
      full_pipeline cbrt (appendQuery hist (profile_to_predict f)) =
        Except.ok (OneHotWithFeatNames_transform (MinMaxWithFeatNames_transform
          (SkewnessHandler_transform cbrt (ValueImputer_transform d4)))) ∧
      (OneHotWithFeatNames_transform (MinMaxWithFeatNames_transform
        (SkewnessHandler_transform cbrt (ValueImputer_transform d4)))).rows.getLast? =
        some (tailStagesRow cbrt d4
          (dropColsRow trainCols feature_to_drop (profile_to_predict f))) ∧
      profile_to_pred_prep cbrt hist (profile_to_predict f) =
        Except.ok (dropTargetCol
          { cols := (OneHotWithFeatNames_transform (MinMaxWithFeatNames_transform
              (SkewnessHandler_transform cbrt (ValueImputer_transform d4)))).cols,
            rows := [tailStagesRow cbrt d4
              (dropColsRow trainCols feature_to_drop (profile_to_predict f))] })) ∧
    (full_pipeline cbrt (appendQuery histRows2 (profile_to_predict formStudent)) =
        full_pipeline cbrt { cols := trainCols, rows := histRows2 } ∧
      (DropUncommonProfession_transform (OutlierImputer_transform
        (DropFeatures_transform
          (appendQuery histRows2 (profile_to_predict formStudent))))).rows.length = 2 ∧
      (appendQuery histRows2 (profile_to_predict formStudent)).rows.length = 3) := by
  constructor
  · have hd1 : DropFeatures_transform (appendQuery hist (profile_to_predict f)) =
        { cols := trainColsKept,
          rows := hist.map (dropColsRow trainCols feature_to_drop) ++
            [dropColsRow trainCols feature_to_drop (profile_to_predict f)] } := by
      simp [DropFeatures_transform, appendQuery,
        show subsetB feature_to_drop trainCols = true from by decide,
        trainColsKept, List.map_append]
    have h1l : rowOut
        { cols := trainColsKept,
          rows := hist.map (dropColsRow trainCols feature_to_drop) ++
            [dropColsRow trainCols feature_to_drop (profile_to_predict f)] }
        (dropColsRow trainCols feature_to_drop (profile_to_predict f)) = false := by
      rw [← hd1]
      exact h1
    obtain ⟨rs2, hout⟩ := OutlierImputer_keeps_last trainColsKept
      (hist.map (dropColsRow trainCols feature_to_drop))
      (dropColsRow trainCols feature_to_drop (profile_to_predict f))
      (by decide) h1l
    have hprofcell : isinProfession (cellOf trainColsKept
        (dropColsRow trainCols feature_to_drop (profile_to_predict f))
        "Profession") = false := by
      rw [show cellOf trainColsKept
          (dropColsRow trainCols feature_to_drop (profile_to_predict f))
          "Profession" = Val.str f.inputProfessions from rfl]
      exact h2
    obtain ⟨rs3, hprof⟩ := DropUncommonProfession_keeps_last trainColsKept rs2
      (dropColsRow trainCols feature_to_drop (profile_to_predict f))
      (by decide) hprofcell
    have hqt : cellOf trainColsKept
        (dropColsRow trainCols feature_to_drop (profile_to_predict f)) targetCol ≠
        Val.na := by
      rw [show cellOf trainColsKept
          (dropColsRow trainCols feature_to_drop (profile_to_predict f)) targetCol =
          Val.num 0 from rfl]
      exact fun hcontra => Val.noConfusion hcontra
    have hq9 : ∀ ft ∈ mode_imputed_ft ++ median_imputed_ft,
        cellOf trainColsKept
          (dropColsRow trainCols feature_to_drop (profile_to_predict f)) ft ≠
          Val.na := by
      intro ft hft
      have hcases : ft = "Gender" ∨ ft = "Income Stability" ∨ ft = "Dependents" ∨
          ft = "Has Active Credit Card" ∨ ft = "Property Location" ∨
          ft = "Income (USD)" ∨ ft = "Current Loan Expenses (USD)" ∨
          ft = "Credit Score" ∨ ft = "Property Age" := by
        simpa [mode_imputed_ft, median_imputed_ft] using hft
      rcases hcases with rfl | rfl | rfl | rfl | rfl | rfl | rfl | rfl | rfl <;>
        exact fun hcontra => Val.noConfusion hcontra
    obtain ⟨rs4, hmvi⟩ := MissingValueImputer_keeps_last trainColsKept rs3
      (dropColsRow trainCols feature_to_drop (profile_to_predict f))
      (by decide) (by decide) hqt hq9
    have t5 : subsetB feat_with_999_val trainColsKept = true := by decide
    have t6 : subsetB col_with_skewness trainColsKept = true := by decide
    have t7 : subsetB min_max_scaler_ft trainColsKept = true := by decide
    have t8 : subsetB one_hot_enc_ft trainColsKept = true := by decide
    have hfp : full_pipeline cbrt (appendQuery hist (profile_to_predict f)) =
        Except.ok (OneHotWithFeatNames_transform (MinMaxWithFeatNames_transform
          (SkewnessHandler_transform cbrt (ValueImputer_transform
            { cols := trainColsKept,
              rows := rs4 ++ [dropColsRow trainCols feature_to_drop
                (profile_to_predict f)] })))) := by
      rw [full_pipeline_unfold, hd1, hout, hprof, hmvi]
    have hlastout := tail_stages_last cbrt
      { cols := trainColsKept,
        rows := rs4 ++ [dropColsRow trainCols feature_to_drop (profile_to_predict f)] }
      (dropColsRow trainCols feature_to_drop (profile_to_predict f))
      t5 t6 t7 t8 (by simp)
    refine
      ⟨{ cols := trainColsKept,
         rows := rs4 ++ [dropColsRow trainCols feature_to_drop (profile_to_predict f)] },
       ?_, by simp, hfp, hlastout, ?_⟩
    · unfold pipelinePrefix
      rw [hd1, hout, hprof, hmvi]
    · unfold profile_to_pred_prep
      rw [hfp]
      show Except.ok (dropTargetCol (tailOne _)) = _
      unfold tailOne
      rw [hlastout]
  · have hv1 : DropFeatures_transform
        (appendQuery histRows2 (profile_to_predict formStudent)) =
        { cols := trainColsKept, rows := [keptRow1, keptRow2, keptStudentRow] } := by
      rfl
    have hro1 : rowOut { cols := trainColsKept, rows := [keptRow1, keptRow2, keptStudentRow] } keptRow1 = false := by
      with_unfolding_all decide
    have hro2 : rowOut { cols := trainColsKept, rows := [keptRow1, keptRow2, keptStudentRow] } keptRow2 = false := by
      with_unfolding_all decide
    have hro3 : rowOut { cols := trainColsKept, rows := [keptRow1, keptRow2, keptStudentRow] } keptStudentRow = false := by
      with_unfolding_all decide
    have hv2 : OutlierImputer_transform
        { cols := trainColsKept, rows := [keptRow1, keptRow2, keptStudentRow] } =
        { cols := trainColsKept, rows := [keptRow1, keptRow2, keptStudentRow] } := by
      have hf : [keptRow1, keptRow2, keptStudentRow].filter
          (fun r =>
            !rowOut { cols := trainColsKept, rows := [keptRow1, keptRow2, keptStudentRow] } r) =
          [keptRow1, keptRow2, keptStudentRow] := by
        apply List.filter_eq_self.mpr
        intro r hr
        rcases (by simpa using hr : r = keptRow1 ∨ r = keptRow2 ∨ r = keptStudentRow)
          with rfl | rfl | rfl
        · simp [hro1]
        · simp [hro2]
        · simp [hro3]
      simp [OutlierImputer_transform,
        show subsetB feat_with_outliers trainColsKept = true from by decide, hf]
    have hv3 : DropUncommonProfession_transform
        { cols := trainColsKept, rows := [keptRow1, keptRow2, keptStudentRow] } =
        { cols := trainColsKept, rows := [keptRow1, keptRow2] } := by
      rfl
    have hw1 : DropFeatures_transform { cols := trainCols, rows := histRows2 } =
        { cols := trainColsKept, rows := [keptRow1, keptRow2] } := by
      rfl
    have hro1h : rowOut { cols := trainColsKept, rows := [keptRow1, keptRow2] } keptRow1 = false := by
      with_unfolding_all decide
    have hro2h : rowOut { cols := trainColsKept, rows := [keptRow1, keptRow2] } keptRow2 = false := by
      with_unfolding_all decide
    have hw2 : OutlierImputer_transform
        { cols := trainColsKept, rows := [keptRow1, keptRow2] } =
        { cols := trainColsKept, rows := [keptRow1, keptRow2] } := by
      have hf : [keptRow1, keptRow2].filter
          (fun r =>
            !rowOut { cols := trainColsKept, rows := [keptRow1, keptRow2] } r) =
          [keptRow1, keptRow2] := by
        apply List.filter_eq_self.mpr
        intro r hr
        rcases (by simpa using hr : r = keptRow1 ∨ r = keptRow2) with rfl | rfl
        · simp [hro1h]
        · simp [hro2h]
      simp [OutlierImputer_transform,
        show subsetB feat_with_outliers trainColsKept = true from by decide, hf]
    have hw3 : DropUncommonProfession_transform
        { cols := trainColsKept, rows := [keptRow1, keptRow2] } =
        { cols := trainColsKept, rows := [keptRow1, keptRow2] } := by
      rfl
    refine ⟨?_, ?_, rfl⟩
    · rw [full_pipeline_unfold, full_pipeline_unfold, hv1, hv2, hv3, hw1, hw2, hw3]
    · rw [hv1, hv2, hv3]
      rfl

/-- Witness for C10: concrete form inputs whose outlier-checked values are
inside the combined frame's bounds and whose profession is not excluded; the
pipeline prefix keeps the projected query record as last row. -/
theorem last_row_is_query_under_survival_witness :
    rowOut (DropFeatures_transform (appendQuery histRows2 (profile_to_predict formGood)))
      (dropColsRow trainCols feature_to_drop (profile_to_predict formGood)) = false ∧
    profession_list.contains formGood.inputProfessions = false ∧
    ∃ d4, pipelinePrefix (appendQuery histRows2 (profile_to_predict formGood)) =
        Except.ok d4 ∧
      d4.rows.getLast? =
        some (dropColsRow trainCols feature_to_drop (profile_to_predict formGood)) := by
  refine ⟨by with_unfolding_all decide, by decide, ?_⟩
  obtain ⟨d4, hp, hl, _⟩ := (last_row_is_query_under_survival (fun x => x) formGood
    histRows2 (by with_unfolding_all decide) (by decide)).1
  exact ⟨d4, hp, hl⟩
